import Mathlib

/-!
Shallow embedding of the mvisual audio-reactive animation engine.

Sources embedded here:
* `src/visualizer/lightning.ts` — fractal lightning system (namespace `Lightning`);
* the smoke/jet particle engine (`createOrbAndParticles`, namespace `Effects`);
* the vocal-layer drop detector (`createVocalLayer`, namespace `Vocal`);
* the two `getBandLevels` variants of `src/visualizer/effects.ts`
  (namespaces `EffectsA` and `EffectsB`).

Modelling conventions:
* JavaScript numbers are modelled as exact rationals; decimal literals of the
  source become the corresponding rational constants.
* `Math.random()` is modelled as an oracle `rs` indexed by a call counter
  that is threaded through every definition in the source's evaluation order.
* `Math.hypot`, `Math.cos`, `Math.sin`, `Math.pow` and `Math.PI` return
  irrational values; they are abstracted as fields of `JSEnv`, so every
  theorem quantifies over them.
* A JavaScript division whose result may be NaN or infinite is modelled with
  `Option` where a claim is about division by zero.
* In-place array mutation of a pool becomes a `List` transformation; the
  reverse-index removal loops of the source are embedded as `filter` or
  `filterMap`, which produce the same surviving sequence.
-/

/-- The source idiom shared by every primitive pool:
`if (pool.length >= CAP) pool.shift(); pool.push(x);`. -/
def pushPool {α : Type} (cap : ℕ) (p : List α) (x : α) : List α :=
  (if cap ≤ p.length then p.drop 1 else p) ++ [x]

/-- `rnd(lo, hi)` of the source, with the `Math.random()` draw `r` explicit:
`lo + r * (hi - lo)`. -/
def rnd (lo hi r : ℚ) : ℚ :=
  lo + r * (hi - lo)

/-- `Math.floor`, landing in ℤ as JavaScript's can be negative. -/
def jsFloor (q : ℚ) : ℤ :=
  ⌊q⌋

/-- `Math.floor` of a nonnegative quantity, used as an index bound. -/
def jsFloorN (q : ℚ) : ℕ :=
  ⌊q⌋.toNat

/-- `Math.round` (round half toward +∞, as in JavaScript). -/
def jsRound (q : ℚ) : ℤ :=
  ⌊q + 1/2⌋

/-- `clamp01` of the particle engine. -/
def clamp01 (v : ℚ) : ℚ :=
  min 1 (max 0 v)

/-- Abstraction of the ambient JavaScript numeric environment: the
`Math.random()` stream (`rs n` is the n-th draw), and the transcendental
`Math` functions, which have no exact rational counterpart. -/
structure JSEnv where
  rs : ℕ → ℚ
  hyp : ℚ → ℚ → ℚ
  cos : ℚ → ℚ
  sin : ℚ → ℚ
  pow : ℚ → ℚ → ℚ
  pi : ℚ
  aspect : ℚ

/-- A `Math.random()` stream that is in range, as the real one is. -/
def JSEnv.InRange (E : JSEnv) : Prop :=
  ∀ n, 0 ≤ E.rs n ∧ E.rs n < 1

namespace Lightning

def MAX_BOLTS : ℕ := 24

def MAX_SEGS_PER_BOLT : ℕ := 512

def MAX_SEGS : ℕ := MAX_BOLTS * MAX_SEGS_PER_BOLT

def VERTS_PER_SEG : ℕ := 4

def IDX_PER_SEG : ℕ := 6

def FLOATS_PER_VERT : ℕ := 10

/-- One lightning segment (`interface Seg`). -/
structure Seg where
  x1 : ℚ
  y1 : ℚ
  x2 : ℚ
  y2 : ℚ
  width : ℚ
  intensity : ℚ
deriving DecidableEq

/-- One bolt (`interface Bolt`). -/
structure Bolt where
  segs : List Seg
  age : ℚ
  maxAge : ℚ
  hue : ℚ
deriving DecidableEq

/-- `perpComponent`: unit perpendicular of a segment, with the `|| 1`
fallback for a zero hypotenuse. -/
def perpComponent (E : JSEnv) (x1 y1 x2 y2 : ℚ) : ℚ × ℚ :=
  let dx := x2 - x1
  let dy := y2 - y1
  let len0 := E.hyp dx dy
  let len := if len0 = 0 then 1 else len0
  (-dy / len, dx / len)

/-- `interface GenOpts`. -/
structure GenOpts where
  depth : ℕ
  offsetScale : ℚ
  branchProb : ℚ
  branchAngle : ℚ
  widthDecay : ℚ
  intensDecay : ℚ
  aspect : ℚ

/-- `generateSegments`: recursive midpoint displacement.  The accumulated
output list and the random-stream counter are threaded explicitly; the
recursion depth argument is the `depth` parameter of the source. -/
def generateSegments (E : JSEnv) (x1 y1 x2 y2 : ℚ) (opts : GenOpts)
    (depth : ℕ) (width intensity : ℚ) (out : List Seg) (k : ℕ) :
    List Seg × ℕ :=
  if MAX_SEGS_PER_BOLT - 4 ≤ out.length then (out, k)
  else
    let dx := x2 - x1
    let dy := y2 - y1
    let lenAsp := E.hyp (dx * opts.aspect) dy
    if h : depth = 0 ∨ lenAsp < 8/1000 then
      (out ++ [⟨x1, y1, x2, y2, width, intensity⟩], k)
    else
      let mx := (x1 + x2) * (1/2)
      let my := (y1 + y2) * (1/2)
      let pc := perpComponent E x1 y1 x2 y2
      let disp := rnd (-1) 1 (E.rs k) * lenAsp * opts.offsetScale
      let jx := mx + pc.1 * disp / opts.aspect
      let jy := my + pc.2 * disp
      let nextW := width * opts.widthDecay
      let nextI := intensity * opts.intensDecay
      let r1 := generateSegments E x1 y1 jx jy opts (depth - 1) nextW nextI out (k + 1)
      let r2 := generateSegments E jx jy x2 y2 opts (depth - 1) nextW nextI r1.1 r1.2
      if 2 ≤ depth then
        if E.rs r2.2 < opts.branchProb then
          let angle := rnd (-opts.branchAngle) opts.branchAngle (E.rs (r2.2 + 1))
          let cosA := E.cos angle
          let sinA := E.sin angle
          let rdx := (x2 - x1) * (1/2) * rnd (45/100) (85/100) (E.rs (r2.2 + 2))
          let rdy := (y2 - y1) * (1/2) * rnd (45/100) (85/100) (E.rs (r2.2 + 3))
          generateSegments E jx jy (jx + (cosA * rdx - sinA * rdy))
            (jy + (sinA * rdx + cosA * rdy)) opts (depth - 2)
            (nextW * (70/100)) (nextI * (65/100)) r2.1 (r2.2 + 4)
        else (r2.1, r2.2 + 1)
      else r2
termination_by depth
decreasing_by
  all_goals simp only [not_or] at h
  all_goals omega

/-- Arguments of `makeBolt`. -/
structure MakeBoltArgs where
  x1 : ℚ
  y1 : ℚ
  x2 : ℚ
  y2 : ℚ
  hue : ℚ
  energy : ℚ
  bpm : ℚ
  maxAge : Option ℚ

/-- `makeBolt`: clamp energy, derive depth and width, generate segments,
draw `maxAge` only when the caller did not give one (the `??` operator). -/
def makeBolt (E : JSEnv) (a : MakeBoltArgs) (k : ℕ) : Bolt × ℕ :=
  let energy := max (2/10) a.energy
  let depth := (6 + jsRound (energy * 2)).toNat
  let wBase := 14/1000 + energy * (6/1000)
  let g := generateSegments E a.x1 a.y1 a.x2 a.y2
    { depth := depth
      offsetScale := 38/100 + energy * (18/100)
      branchProb := 48/100 + energy * (22/100)
      branchAngle := E.pi * (28/100 + energy * (15/100))
      widthDecay := 88/100
      intensDecay := 88/100
      aspect := E.aspect }
    depth wBase (85/100 + energy * (15/100)) [] k
  match a.maxAge with
  | some m => ({ segs := g.1, age := 0, maxAge := m, hue := a.hue }, g.2)
  | none =>
      ({ segs := g.1, age := 0, maxAge := rnd (6/10) (15/10) (E.rs g.2), hue := a.hue }, g.2 + 1)

def WAVE_TOP : ℚ := 26/100

def WAVE_BOT : ℚ := 74/100

/-- `safeY`: a Y coordinate in the top or bottom safe zone. -/
def safeY (E : JSEnv) (k : ℕ) : ℚ × ℕ :=
  if E.rs k < 1/2 then (rnd (4/100) WAVE_TOP (E.rs (k + 1)), k + 2)
  else (rnd WAVE_BOT (96/100) (E.rs (k + 1)), k + 2)

/-- `randomEdgeUV`: a random point on one of the four screen edges. -/
def randomEdgeUV (E : JSEnv) (k : ℕ) : (ℚ × ℚ) × ℕ :=
  let edge := jsFloor (E.rs k * 4)
  let t := rnd (5/100) (95/100) (E.rs (k + 1))
  if edge = 0 then ((t, 0), k + 2)
  else if edge = 1 then ((t, 1), k + 2)
  else if edge = 2 then
    let s := safeY E (k + 2)
    ((0, s.1), s.2)
  else
    let s := safeY E (k + 2)
    ((1, s.1), s.2)

/-- `spawnBolt`: FIFO-evicting insertion of a freshly generated bolt. -/
def spawnBolt (E : JSEnv) (x1 y1 x2 y2 hue energy bpm : ℚ) (maxAge : Option ℚ)
    (bolts : List Bolt) (k : ℕ) : List Bolt × ℕ :=
  let m := makeBolt E
    { x1 := x1, y1 := y1, x2 := x2, y2 := y2, hue := hue, energy := energy,
      bpm := bpm, maxAge := maxAge } k
  (pushPool MAX_BOLTS bolts m.1, m.2)

/-- `spawnEdgeBolt`: spawn a bolt from a random edge point toward a safe-zone
target. -/
def spawnEdgeBolt (E : JSEnv) (hue energy bpm : ℚ) (bolts : List Bolt) (k : ℕ) :
    List Bolt × ℕ :=
  let p := randomEdgeUV E k
  let tx := rnd (1/10) (9/10) (E.rs p.2)
  let s := safeY E (p.2 + 1)
  spawnBolt E p.1.1 p.1.2 tx s.1 hue energy bpm none bolts s.2

/-- The detector half of the lightning system's closure state: the 3-band
EMA/attack trackers, the cooldowns and the beat clock, plus the position `k`
of the shared `Math.random()` stream. -/
structure LDet where
  sbFast : ℚ
  sbSlow : ℚ
  prevSb : ℚ
  midFast : ℚ
  midSlow : ℚ
  prevMid : ℚ
  hiFast : ℚ
  hiSlow : ℚ
  prevHi : ℚ
  impactCD : ℚ
  beatCD : ℚ
  beatClock : ℚ
  beatSnapCD : ℚ
  bigHitCD : ℚ
  k : ℕ

/-- The full closure state of `createLightningSystem`: the bolt pool plus the
detector state. -/
structure LState where
  bolts : List Bolt
  det : LDet

/-- Per-frame inputs of `update`. -/
structure LInput where
  freq : List ℕ
  energy : ℚ
  bpm : ℚ
  hue : ℚ
  dt : ℚ

/-- Spawn events of one `update` call, in program order. -/
inductive LEvent where
  | beatPulse
  | snap
  | onsetBolt
  | multiMain
  | multiExtra
  | fallback
deriving DecidableEq

/-- A band sum of the source's indexed loops:
`for (i = lo; i < hi; i++) acc += frequencyData[i] / 255`. -/
def bandSum (data : List ℕ) (lo hi : ℕ) : ℚ :=
  ((List.range' lo (hi - lo)).map (fun i => ((data.getD i 0 : ℕ) : ℚ) / 255)).sum

/-- The frame-rate-normalised EMA rate `k60` of the source:
`min(1, r * dt * 60)`. -/
def k60 (r dt : ℚ) : ℚ :=
  min 1 (r * dt * 60)

/-- Results of the 3-band analysis section of `update` (lines 453–486 of
`lightning.ts`), packaging the local variables of that block. -/
structure LAnalysis where
  sb : ℚ
  mid : ℚ
  hi : ℚ
  sbAttack : ℚ
  midAttack : ℚ
  hiAttack : ℚ
  sbFast : ℚ
  sbSlow : ℚ
  midFast : ℚ
  midSlow : ℚ
  hiFast : ℚ
  hiSlow : ℚ
  sbOnset : ℚ
  midOnset : ℚ
  hiOnset : ℚ
  onset : ℚ

/-- The 3-band analysis of `update`: band averages, per-band attacks, fast and
slow EMAs, per-band onsets and the composite onset. -/
def lightningAnalysis (d : LDet) (freq : List ℕ) (dt : ℚ) : LAnalysis :=
  let len := freq.length
  let sbEnd := jsFloorN ((len : ℚ) * (8/100))
  let midEnd := jsFloorN ((len : ℚ) * (55/100))
  let sb := bandSum freq 0 sbEnd / max 1 (sbEnd : ℚ)
  let mid := bandSum freq sbEnd midEnd / max 1 ((midEnd : ℚ) - sbEnd)
  let hi := bandSum freq midEnd len / max 1 ((len : ℚ) - midEnd)
  let sbAttack := max 0 (sb - d.prevSb)
  let midAttack := max 0 (mid - d.prevMid)
  let hiAttack := max 0 (hi - d.prevHi)
  let sbFast := d.sbFast + (sb - d.sbFast) * k60 (55/100) dt
  let sbSlow := d.sbSlow + (sb - d.sbSlow) * k60 (4/100) dt
  let midFast := d.midFast + (mid - d.midFast) * k60 (55/100) dt
  let midSlow := d.midSlow + (mid - d.midSlow) * k60 (4/100) dt
  let hiFast := d.hiFast + (hi - d.hiFast) * k60 (55/100) dt
  let hiSlow := d.hiSlow + (hi - d.hiSlow) * k60 (4/100) dt
  let sbOnset := max 0 (sbFast - sbSlow) + sbAttack * (7/10)
  let midOnset := max 0 (midFast - midSlow) + midAttack * (7/10)
  let hiOnset := max 0 (hiFast - hiSlow) + hiAttack * (7/10)
  { sb := sb, mid := mid, hi := hi
    sbAttack := sbAttack, midAttack := midAttack, hiAttack := hiAttack
    sbFast := sbFast, sbSlow := sbSlow, midFast := midFast, midSlow := midSlow
    hiFast := hiFast, hiSlow := hiSlow
    sbOnset := sbOnset, midOnset := midOnset, hiOnset := hiOnset
    onset := sbOnset * (50/100) + midOnset * (30/100) + hiOnset * (20/100) }

/-- `spb = 60 / Math.max(70, bpm)` — line 494 of `lightning.ts`. -/
def lightningSpb (bpm : ℚ) : ℚ :=
  60 / max 70 bpm

/-- Beat-clock block (lines 500–503): fire a steady pulse on wraparound. -/
def beatBlock (E : JSEnv) (bolts : List Bolt) (k : ℕ)
    (beatClock spb hue energy bpm : ℚ) : List Bolt × ℚ × ℕ × Bool :=
  if spb ≤ beatClock then
    let sp := spawnEdgeBolt E (hue + rnd (-(8/100)) (8/100) (E.rs k)) energy bpm
      bolts (k + 1)
    (sp.1, beatClock - spb, sp.2, true)
  else (bolts, beatClock, k, false)

/-- Transient-snap block (lines 506–511): strong onset near the beat
boundary fires immediately.  Returns pool, `beatSnapCD`, `impactCD`,
counter and fired flag. -/
def snapBlock (E : JSEnv) (bolts : List Bolt) (k : ℕ)
    (onset onsetThresh beatPhase beatSnapCD impactCD spb hue energy bpm : ℚ) :
    List Bolt × ℚ × ℚ × ℕ × Bool :=
  if onsetThresh < onset ∧ (80/100 < beatPhase ∨ beatPhase < 15/100) ∧
      beatSnapCD ≤ 0 ∧ impactCD ≤ 0 then
    let sp := spawnEdgeBolt E (hue + rnd (-(12/100)) (12/100) (E.rs k))
      (min 1 (energy + onset * (5/10))) bpm bolts (k + 1)
    (sp.1, spb * (45/100), 14/100, sp.2, true)
  else (bolts, beatSnapCD, impactCD, k, false)

/-- Onset-driven block (lines 514–517): off-beat hits.  Returns pool,
`impactCD`, counter and fired flag. -/
def onsetBlock (E : JSEnv) (bolts : List Bolt) (k : ℕ)
    (onset onsetThresh impactCD hue energy bpm : ℚ) :
    List Bolt × ℚ × ℕ × Bool :=
  if onsetThresh < onset ∧ impactCD ≤ 0 then
    let sp := spawnEdgeBolt E (hue + rnd (-(15/100)) (15/100) (E.rs k))
      (min 1 (energy + onset * (4/10))) bpm bolts (k + 1)
    (sp.1, 22/100 + rnd 0 (6/100) (E.rs sp.2), sp.2 + 1, true)
  else (bolts, impactCD, k, false)

/-- Multi-hit / fallback comet block (lines 520–542).  Returns pool,
`bigHitCD`, `beatCD`, counter and the three fired flags (multi-hit main
comet, extra edge bolt, single-bass fallback comet). -/
def multiBlock (E : JSEnv) (bolts : List Bolt) (k : ℕ)
    (sbOnset midOnset hiOnset onset bigHitCD beatCD hue energy bpm : ℚ) :
    List Bolt × ℚ × ℚ × ℕ × Bool × Bool × Bool :=
  let multiHitStrength := sbOnset + midOnset + hiOnset
  if (38/1000 < sbOnset ∧ 30/1000 < midOnset ∧ 25/1000 < hiOnset) ∧
      10/100 < multiHitStrength ∧ bigHitCD ≤ 0 then
    let p := randomEdgeUV E k
    let x2raw := 1 - p.1.1 + rnd (-(18/100)) (18/100) (E.rs p.2)
    let y2raw := 1 - p.1.2 + rnd (-(18/100)) (18/100) (E.rs (p.2 + 1))
    let x2 := max 0 (min 1 x2raw)
    let y2 := if y2raw < 1/2 then min y2raw WAVE_TOP else max y2raw WAVE_BOT
    let sp := spawnBolt E p.1.1 p.1.2 x2 y2
      (hue + rnd (3/10) (55/100) (E.rs (p.2 + 2)))
      (min 1 (energy + multiHitStrength * (5/10))) bpm
      (some (rnd (7/10) (14/10) (E.rs (p.2 + 3)))) bolts (p.2 + 4)
    if 20/100 < multiHitStrength then
      let sp2 := spawnEdgeBolt E (hue + rnd (-(2/10)) (2/10) (E.rs sp.2))
        (min 1 (energy + 25/100)) bpm sp.1 (sp.2 + 1)
      (sp2.1, 22/100, rnd (45/100) (85/100) (E.rs sp2.2), sp2.2 + 1, true, true, false)
    else
      (sp.1, 22/100, rnd (45/100) (85/100) (E.rs sp.2), sp.2 + 1, true, false, false)
  else if 28/100 < onset ∧ beatCD ≤ 0 then
    let p := randomEdgeUV E k
    let x2raw := 1 - p.1.1 + rnd (-(15/100)) (15/100) (E.rs p.2)
    let y2raw := 1 - p.1.2 + rnd (-(15/100)) (15/100) (E.rs (p.2 + 1))
    let x2 := max 0 (min 1 x2raw)
    let y2 := if y2raw < 1/2 then min y2raw WAVE_TOP else max y2raw WAVE_BOT
    let sp := spawnBolt E p.1.1 p.1.2 x2 y2
      (hue + rnd (3/10) (5/10) (E.rs (p.2 + 2)))
      (min 1 (energy + 2/10)) bpm
      (some (rnd (9/10) (18/10) (E.rs (p.2 + 3)))) bolts (p.2 + 4)
    (sp.1, bigHitCD, rnd (6/10) (12/10) (E.rs sp.2), sp.2 + 1, false, false, true)
  else (bolts, bigHitCD, beatCD, k, false, false, false)

/-- Bolt aging (lines 545–548): advance ages, remove expired bolts.  The
reverse-index removal loop of the source keeps exactly the survivors in
order. -/
def ageBolts (dt : ℚ) (bolts : List Bolt) : List Bolt :=
  (bolts.map (fun b => { b with age := b.age + dt })).filter
    (fun b => decide (b.age < b.maxAge))

/-- The per-frame `update` of `createLightningSystem` (lines 440–551),
returning the new state and the spawn events of the frame in program
order.  The GPU upload is modelled separately by `uploadToGPU`. -/
def lightningUpdate (E : JSEnv) (s : LState) (inp : LInput) :
    LState × List LEvent :=
  if inp.freq.length = 0 then (s, [])
  else
    let d := s.det
    let a := lightningAnalysis d inp.freq inp.dt
    let impactCD0 := max 0 (d.impactCD - inp.dt)
    let beatCD0 := max 0 (d.beatCD - inp.dt)
    let beatSnapCD0 := max 0 (d.beatSnapCD - inp.dt)
    let bigHitCD0 := max 0 (d.bigHitCD - inp.dt)
    let beatClock0 := d.beatClock + inp.dt
    let spb := lightningSpb inp.bpm
    let beatPhase := beatClock0 / spb
    let onsetThresh := 55/1000 - inp.energy * (12/1000)
    let r1 := beatBlock E s.bolts d.k beatClock0 spb inp.hue inp.energy inp.bpm
    let r2 := snapBlock E r1.1 r1.2.2.1 a.onset onsetThresh beatPhase
      beatSnapCD0 impactCD0 spb inp.hue inp.energy inp.bpm
    let r3 := onsetBlock E r2.1 r2.2.2.2.1 a.onset onsetThresh r2.2.2.1
      inp.hue inp.energy inp.bpm
    let r4 := multiBlock E r3.1 r3.2.2.1 a.sbOnset a.midOnset a.hiOnset a.onset
      bigHitCD0 beatCD0 inp.hue inp.energy inp.bpm
    let bolts' := ageBolts inp.dt r4.1
    (⟨bolts',
      { sbFast := a.sbFast, sbSlow := a.sbSlow, prevSb := a.sb
        midFast := a.midFast, midSlow := a.midSlow, prevMid := a.mid
        hiFast := a.hiFast, hiSlow := a.hiSlow, prevHi := a.hi
        impactCD := r3.2.1, beatCD := r4.2.2.1, beatClock := r1.2.1
        beatSnapCD := r2.2.1, bigHitCD := r4.2.1, k := r4.2.2.2.1 }⟩,
      (if r1.2.2.2 then [LEvent.beatPulse] else []) ++
      (if r2.2.2.2.2 then [LEvent.snap] else []) ++
      (if r3.2.2.2 then [LEvent.onsetBolt] else []) ++
      (if r4.2.2.2.2.1 then [LEvent.multiMain] else []) ++
      (if r4.2.2.2.2.2.1 then [LEvent.multiExtra] else []) ++
      (if r4.2.2.2.2.2.2 then [LEvent.fallback] else []))

/-- The initial state built by `createLightningSystem` (lines 315–341,
385–397): four seed bolts aimed at the screen corners, all detector state
zero. -/
def initLState (E : JSEnv) : LState :=
  let step := fun (acc : List Bolt × ℕ) (i : ℕ) =>
    let angle := ((i : ℚ) / 4) * E.pi * 2
    let ex := 1/2 + E.cos angle * (55/100)
    let eyRaw := 1/2 + E.sin angle * (38/100)
    let ey := if eyRaw < 1/2 then min eyRaw WAVE_TOP else max eyRaw WAVE_BOT
    let m := makeBolt E
      { x1 := 1/2
        y1 := if ey < 1/2 then WAVE_TOP * (1/2) else WAVE_BOT + (1 - WAVE_BOT) * (1/2)
        x2 := ex, y2 := ey, hue := (i : ℚ) / 4, energy := 1/2, bpm := 120
        maxAge := some (12/10) } acc.2
    (acc.1 ++ [m.1], m.2)
  let init := (List.range 4).foldl step ([], 0)
  ⟨init.1,
    { sbFast := 0, sbSlow := 0, prevSb := 0, midFast := 0, midSlow := 0,
      prevMid := 0, hiFast := 0, hiSlow := 0, prevHi := 0, impactCD := 0,
      beatCD := 0, beatClock := 0, beatSnapCD := 0, bigHitCD := 0,
      k := init.2 }⟩

/-- `lightningRun`: iterate `update` over a list of frame inputs, collecting
each frame's spawn events. -/
def lightningRun (E : JSEnv) (s : LState) : List LInput → List (List LEvent)
  | [] => []
  | inp :: rest =>
      let r := lightningUpdate E s inp
      r.2 :: lightningRun E r.1 rest

end Lightning

namespace Effects

def MAX_SMOKES : ℕ := 180

def MAX_JETS : ℕ := 6

/-- `type Smoke`. -/
structure Smoke where
  x : ℚ
  y : ℚ
  vx : ℚ
  vy : ℚ
  age : ℚ
  maxAge : ℚ
  radius : ℚ
  seed : ℚ
  hue : ℚ
  sat : ℚ
deriving DecidableEq

/-- `type Jet`. -/
structure Jet where
  sx : ℚ
  sy : ℚ
  cx : ℚ
  cy : ℚ
  ex : ℚ
  ey : ℚ
  age : ℚ
  duration : ℚ
  emitCarry : ℚ
  emitRate : ℚ
  intensity : ℚ
  hue : ℚ
  seedRange : ℚ × ℚ
deriving DecidableEq

/-- Band levels. -/
structure Bands where
  low : ℚ
  mid : ℚ
  high : ℚ
deriving DecidableEq

/-- A raw band sum `for (i = lo; i < hi; i++) acc += data[i]`. -/
def rawBandSum (data : List ℕ) (lo hi : ℕ) : ℚ :=
  ((List.range' lo (hi - lo)).map (fun i => ((data.getD i 0 : ℕ) : ℚ))).sum

/-- `getBandLevels` of the particle engine (guarded against empty input and
empty bands). -/
def getBandLevels (data : List ℕ) : Bands :=
  let len := data.length
  if len = 0 then ⟨0, 0, 0⟩
  else
    let a := jsFloorN ((len : ℚ) * (23/100))
    let b := jsFloorN ((len : ℚ) * (62/100))
    ⟨rawBandSum data 0 a / max 1 (a : ℚ) / 255,
     rawBandSum data a b / max 1 ((b : ℚ) - (a : ℚ)) / 255,
     rawBandSum data b len / max 1 ((len : ℚ) - (b : ℚ)) / 255⟩

/-- `addSmoke`: FIFO-evicting insertion of a new smoke puff; draws maxAge,
radius and seed from the random stream. -/
def addSmoke (E : JSEnv) (x y vx vy hue sat : ℚ) (seedRange : ℚ × ℚ)
    (intensity sizeScale lifeScale : ℚ) (smokes : List Smoke) (k : ℕ) :
    List Smoke × ℕ :=
  (pushPool MAX_SMOKES smokes
    { x := x, y := y, vx := vx, vy := vy, age := 0
      maxAge := (2 + E.rs k * (16/10)) * lifeScale
      radius := (rnd (45/1000) (72/1000) (E.rs (k + 1)) + intensity * (18/1000)) * sizeScale
      seed := rnd seedRange.1 seedRange.2 (E.rs (k + 2))
      hue := hue, sat := sat }, k + 3)

/-- `randomEdgePoint`: a point slightly outside a random screen edge. -/
def randomEdgePoint (E : JSEnv) (k : ℕ) : (ℚ × ℚ) × ℕ :=
  let edge := jsFloor (E.rs k * 4)
  let t := rnd (5/100) (95/100) (E.rs (k + 1))
  if edge = 0 then ((t, -(3/100)), k + 2)
  else if edge = 1 then ((t, 103/100), k + 2)
  else if edge = 2 then ((-(3/100), t), k + 2)
  else ((103/100, t), k + 2)

/-- `oppositeEdgePoint`: candidate exit edges are collected (drawing a fresh
`t` per candidate) and one is chosen at random. -/
def oppositeEdgePoint (E : JSEnv) (sx sy : ℚ) (k : ℕ) : (ℚ × ℚ) × ℕ :=
  let c0 : List (ℚ × ℚ) × ℕ := ([], k)
  let c1 := if 0 ≤ sy then
    (c0.1 ++ [(rnd (5/100) (95/100) (E.rs c0.2), -(3/100))], c0.2 + 1) else c0
  let c2 := if sy ≤ 1 then
    (c1.1 ++ [(rnd (5/100) (95/100) (E.rs c1.2), 103/100)], c1.2 + 1) else c1
  let c3 := if 0 ≤ sx then
    (c2.1 ++ [(-(3/100), rnd (5/100) (95/100) (E.rs c2.2))], c2.2 + 1) else c2
  let c4 := if sx ≤ 1 then
    (c3.1 ++ [(103/100, rnd (5/100) (95/100) (E.rs c3.2))], c3.2 + 1) else c3
  (c4.1.getD (jsFloorN (E.rs c4.2 * (c4.1.length : ℚ))) (0, 0), c4.2 + 1)

/-- `triggerPlume`: one curved edge-to-edge jet. -/
def triggerPlume (E : JSEnv) (energy bpm : ℚ) (jets : List Jet) (k : ℕ) :
    List Jet × ℕ :=
  let start := randomEdgePoint E k
  let e := oppositeEdgePoint E start.1.1 start.1.2 start.2
  let dx := e.1.1 - start.1.1
  let dy := e.1.2 - start.1.2
  let pLen0 := E.hyp dx dy
  let pLen := if pLen0 = 0 then 1 else pLen0
  let bend := rnd (-(85/100)) (85/100) (E.rs e.2)
  let hue := E.rs (e.2 + 1)
  (pushPool MAX_JETS jets
    { sx := start.1.1, sy := start.1.2
      cx := (start.1.1 + e.1.1) * (1/2) + (-dy / pLen) * bend
      cy := (start.1.2 + e.1.2) * (1/2) + (dx / pLen) * bend
      ex := e.1.1, ey := e.1.2, age := 0
      duration := max (40/100) (60 / max 70 bpm * (65/100))
      emitCarry := 0, emitRate := 62 + energy * 52
      intensity := 36/100 + energy * (44/100)
      hue := hue, seedRange := (0, 31/100) }, e.2 + 2)

/-- `triggerBurst`: an immediate radial burst of smoke puffs. -/
def triggerBurst (E : JSEnv) (energy : ℚ) (smokes : List Smoke) (k : ℕ) :
    List Smoke × ℕ :=
  let ox := rnd (2/10) (8/10) (E.rs k)
  let oy := rnd (2/10) (8/10) (E.rs (k + 1))
  let hue := E.rs (k + 2)
  let count := (jsRound (12 + energy * 14)).toNat
  (List.range count).foldl (fun (acc : List Smoke × ℕ) i =>
    let angle := ((i : ℚ) / (count : ℚ)) * E.pi * 2 + rnd (-(25/100)) (25/100) (E.rs acc.2)
    let speed := rnd (6/100) (18/100) (E.rs (acc.2 + 1)) * (55/100 + energy * (55/100))
    addSmoke E (ox + rnd (-(18/1000)) (18/1000) (E.rs (acc.2 + 2)))
      (oy + rnd (-(18/1000)) (18/1000) (E.rs (acc.2 + 3)))
      (E.cos angle * speed) (E.sin angle * speed)
      hue (rnd (28/100) (56/100) (E.rs (acc.2 + 4))) (0, 31/100) energy (80/100) (11/10)
      acc.1 (acc.2 + 5)) (smokes, k + 3)

/-- `triggerComet`: one swinging edge-to-edge jet. -/
def triggerComet (E : JSEnv) (energy bpm : ℚ) (jets : List Jet) (k : ℕ) :
    List Jet × ℕ :=
  let start := randomEdgePoint E k
  let e := oppositeEdgePoint E start.1.1 start.1.2 start.2
  let perpX := -(e.1.2 - start.1.2)
  let perpY := e.1.1 - start.1.1
  let swing := rnd (22/100) (48/100) (E.rs e.2) * (if E.rs (e.2 + 1) < 1/2 then 1 else -1)
  let hue := E.rs (e.2 + 2)
  (pushPool MAX_JETS jets
    { sx := start.1.1, sy := start.1.2
      cx := (start.1.1 + e.1.1) * (1/2) + perpX * swing
      cy := (start.1.2 + e.1.2) * (1/2) + perpY * swing
      ex := e.1.1, ey := e.1.2, age := 0
      duration := max (55/100) (60 / max 70 bpm * (90/100))
      emitCarry := 0, emitRate := 28 + energy * 18
      intensity := 72/100 + energy * (48/100)
      hue := hue, seedRange := (0, 31/100) }, e.2 + 3)

/-- One radial arm of `triggerShockwave`, drawing from stream position `k`. -/
def shockArm (E : JSEnv) (energy bpm ox oy hue : ℚ) (i : ℕ) (k : ℕ) : Jet :=
  let angle := ((i : ℚ) / 8) * E.pi * 2 + E.rs k * (22/100)
  let reach := 68/100 + E.rs (k + 1) * (40/100)
  let ex := ox + E.cos angle * reach
  let ey := oy + E.sin angle * reach
  let bend := rnd (-(10/100)) (10/100) (E.rs (k + 2))
  let mx := (ox + ex) * (1/2)
  let my := (oy + ey) * (1/2)
  let dx := ex - ox
  let dy := ey - oy
  let pLen0 := E.hyp dx dy
  let pLen := if pLen0 = 0 then 1 else pLen0
  { sx := ox, sy := oy
    cx := mx + (-dy / pLen) * bend
    cy := my + (dx / pLen) * bend
    ex := ex, ey := ey, age := 0
    duration := max (13/100) (60 / max 70 bpm * (20/100))
    emitCarry := 0, emitRate := 38 + energy * 28
    intensity := 62/100 + energy * (38/100)
    hue := hue + (i : ℚ) * (32/1000), seedRange := (34/100, 65/100) }

/-- `triggerShockwave`: 8 radial jet arms (each inserted with the FIFO pool
idiom), a radial smoke burst and a screen flash.  Returns the new smoke
pool, jet pool, flash value and stream position. -/
def triggerShockwave (E : JSEnv) (energy bpm : ℚ) (smokes : List Smoke)
    (jets : List Jet) (k : ℕ) : List Smoke × List Jet × ℚ × ℕ :=
  let hue := E.rs k
  let ox := 38/100 + E.rs (k + 1) * (24/100)
  let oy := 38/100 + E.rs (k + 2) * (24/100)
  let jr := (List.range 8).foldl (fun (acc : List Jet × ℕ) i =>
    (pushPool MAX_JETS acc.1 (shockArm E energy bpm ox oy hue i acc.2), acc.2 + 3))
    (jets, k + 3)
  let count := (jsRound (18 + energy * 18)).toNat
  let sr := (List.range count).foldl (fun (acc : List Smoke × ℕ) _ =>
    let a := E.rs acc.2 * E.pi * 2
    let speed := rnd (9/100) (26/100) (E.rs (acc.2 + 1)) * (55/100 + energy * (55/100))
    addSmoke E (ox + rnd (-(2/100)) (2/100) (E.rs (acc.2 + 2)))
      (oy + rnd (-(2/100)) (2/100) (E.rs (acc.2 + 3)))
      (E.cos a * speed) (E.sin a * speed)
      (hue + rnd (-(7/100)) (7/100) (E.rs (acc.2 + 4)))
      (rnd (42/100) (72/100) (E.rs (acc.2 + 5))) (67/100, 97/100) energy (68/100) (72/100)
      acc.1 (acc.2 + 6)) (smokes, jr.2)
  (sr.1, jr.1, 78/100 + energy * (22/100), sr.2)

/-- `triggerScatter`: a directional spray of smoke puffs from a random
edge. -/
def triggerScatter (E : JSEnv) (energy : ℚ) (smokes : List Smoke) (k : ℕ) :
    List Smoke × ℕ :=
  let origin := randomEdgePoint E k
  let inX := 1/2 - origin.1.1
  let inY := 1/2 - origin.1.2
  let inLen0 := E.hyp inX inY
  let inLen := if inLen0 = 0 then 1 else inLen0
  let nx := inX / inLen
  let ny := inY / inLen
  let hue := E.rs origin.2
  let count := (jsRound (16 + energy * 16)).toNat
  (List.range count).foldl (fun (acc : List Smoke × ℕ) _ =>
    let spread := rnd (-(70/100)) (70/100) (E.rs acc.2)
    let speed := rnd (18/1000) (65/1000) (E.rs (acc.2 + 1))
    addSmoke E (origin.1.1 + rnd (-(25/1000)) (25/1000) (E.rs (acc.2 + 2)))
      (origin.1.2 + rnd (-(25/1000)) (25/1000) (E.rs (acc.2 + 3)))
      ((nx + -ny * spread) * speed) ((ny + nx * spread) * speed)
      (hue + rnd (-(5/100)) (5/100) (E.rs (acc.2 + 4)))
      (rnd (26/100) (52/100) (E.rs (acc.2 + 5))) (67/100, 97/100) energy (58/100) (19/10)
      acc.1 (acc.2 + 6)) (smokes, origin.2 + 1)

/-- The closure state of `createOrbAndParticles` relevant to its per-frame
update: the pools, the per-type cooldown array, the beat/onset detector
scalars, the flash uniform and the random-stream position. -/
structure EState where
  smokes : List Smoke
  jets : List Jet
  typeCooldowns : List ℚ
  lastType : ℤ
  beatClock : ℚ
  globalRest : ℚ
  bassEmaFast : ℚ
  bassEmaSlow : ℚ
  prevLow : ℚ
  peakHeld : ℚ
  impactCD : ℚ
  shockCD : ℚ
  flash : ℚ
  k : ℕ

/-- Per-frame inputs of the particle engine's `update` (the fields of
`EffectParams` it reads). -/
structure EParams where
  bpm : ℚ
  energy : ℚ
  freq : List ℕ

/-- Trigger events of one particle-engine update. -/
inductive EEvent where
  | beatFire (t : ℕ)
  | onsetFire (t : ℕ)
  | shock
deriving DecidableEq

/-- The per-type cooldown constants of `pickAndFire`. -/
def cooldownsConst : List ℚ := [16/10, 2, 12/10, 24/10]

/-- `bpm` clamp of the particle engine's update:
`Math.max(72, Math.min(190, p.bpm || 120))`.  The only falsy rational is 0
(NaN is outside the model). -/
def effectsClampBpm (bpm : ℚ) : ℚ :=
  max 72 (min 190 (if bpm = 0 then 120 else bpm))

/-- The kick-onset strength of the particle engine (lines 891–897):
`max(0, bassEmaFast - bassEmaSlow) + attack * 0.75` with
`attack = max(0, low - prevLow)`. -/
def effectsOnset (fast slow low prevLow : ℚ) : ℚ :=
  max 0 (fast - slow) + max 0 (low - prevLow) * (75/100)

/-- `pickAndFire`: choose an eligible non-shockwave effect at random and
fire it. -/
def pickAndFire (E : JSEnv) (energy bpm : ℚ) (s : EState) : EState × Option ℕ :=
  let eligible := (List.range 4).filter
    (fun t => decide (s.typeCooldowns.getD t 0 ≤ 0) && decide ((t : ℤ) ≠ s.lastType))
  if eligible.length = 0 then (s, none)
  else
    let chose := eligible.getD (jsFloorN (E.rs s.k * (eligible.length : ℚ))) 0
    let k1 := s.k + 1
    let base := { s with lastType := (chose : ℤ)
                         typeCooldowns := s.typeCooldowns.set chose (cooldownsConst.getD chose 0)
                         globalRest := 34/100 + (1 - energy) * (38/100)
                         k := k1 }
    if chose = 0 then
      let r := triggerPlume E energy bpm s.jets k1
      ({ base with jets := r.1, k := r.2 }, some 0)
    else if chose = 1 then
      let r := triggerBurst E energy s.smokes k1
      ({ base with smokes := r.1, k := r.2 }, some 1)
    else if chose = 2 then
      let r := triggerComet E energy bpm s.jets k1
      ({ base with jets := r.1, k := r.2 }, some 2)
    else
      let r := triggerScatter E energy s.smokes k1
      ({ base with smokes := r.1, k := r.2 }, some 3)

/-- One iteration of the `updateJets` loop for a single jet: age it, emit
the accumulated whole number of puffs along the Bézier, drop the jet when
its duration has elapsed. -/
def jetStep (E : JSEnv) (bands : Bands) (dt : ℚ) (jet : Jet)
    (smokes : List Smoke) (k : ℕ) : Option Jet × List Smoke × ℕ :=
  let age := jet.age + dt
  let progress := clamp01 (age / jet.duration)
  let carry := jet.emitCarry + jet.emitRate * dt
  let puffs : ℤ := jsFloor carry
  let carry' := carry - (puffs : ℚ)
  let r := (List.range puffs.toNat).foldl (fun (acc : List Smoke × ℕ) p =>
    let t := clamp01 (progress - ((p : ℚ) + E.rs acc.2) / max 1 (puffs : ℚ) * (7/100))
    let mt := 1 - t
    let x := mt * mt * jet.sx + 2 * mt * t * jet.cx + t * t * jet.ex
    let y := mt * mt * jet.sy + 2 * mt * t * jet.cy + t * t * jet.ey
    let dtx := 2 * mt * (jet.cx - jet.sx) + 2 * t * (jet.ex - jet.cx)
    let dty := 2 * mt * (jet.cy - jet.sy) + 2 * t * (jet.ey - jet.cy)
    let dl0 := E.hyp dtx dty
    let dl := if dl0 = 0 then 1 else dl0
    let perp := (E.rs (acc.2 + 1) - 1/2) * (18/1000 + bands.high * (12/1000))
    addSmoke E (x + rnd (-(5/1000)) (5/1000) (E.rs (acc.2 + 2)))
      (y + rnd (-(5/1000)) (5/1000) (E.rs (acc.2 + 3)))
      (dtx / dl * rnd (3/100) (6/100) (E.rs (acc.2 + 4)) - dty / dl * perp)
      (dty / dl * rnd (3/100) (6/100) (E.rs (acc.2 + 5)) + dtx / dl * perp)
      jet.hue (34/100 + bands.mid * (14/100)) jet.seedRange
      (jet.intensity * (72/100 + bands.low * (50/100))) 1 (52/100)
      acc.1 (acc.2 + 6)) (smokes, k)
  (if jet.duration ≤ age then none else some { jet with age := age, emitCarry := carry' },
   r.1, r.2)

/-- `updateJets`: the source iterates the jet array in reverse index order,
so the last jet emits first; surviving jets keep their order. -/
def updateJets (E : JSEnv) (bands : Bands) (dt : ℚ) :
    List Jet → List Smoke → ℕ → List Jet × List Smoke × ℕ
  | [], smokes, k => ([], smokes, k)
  | j :: rest, smokes, k =>
      let r := updateJets E bands dt rest smokes k
      let s := jetStep E bands dt j r.2.1 r.2.2
      ((match s.1 with
        | some j' => [j']
        | none => []) ++ r.1, s.2.1, s.2.2)

/-- One iteration of the smoke aging loop (lines 916–936): age, drag,
wobble, integrate position, and remove on expiry or leaving the bounds. -/
def smokeStep (E : JSEnv) (bands : Bands) (dt : ℚ) (s : Smoke) : Option Smoke :=
  let age := s.age + dt
  if s.maxAge ≤ age then none
  else
    let drag := E.pow (978/1000) (dt * 60)
    let vx0 := s.vx * drag
    let vy0 := s.vy * drag
    let f1 := 12/10 + s.seed * (12/10)
    let f2 := 26/10 + s.seed * (16/10)
    let wob := E.sin (age * f1 + s.seed * (81/10)) +
      E.sin (age * f2 + s.seed * (135/10)) * (25/100)
    let vx := vx0 + wob * (4/1000 + bands.mid * (6/1000)) * dt
    let vy := vy0 + E.cos (age * f1 * (71/100) + s.seed * (49/10)) *
      (3/1000 + bands.high * (5/1000)) * dt + (2/1000) * dt
    let x := s.x + vx * dt
    let y := s.y + vy * dt
    if x < -(3/10) ∨ 13/10 < x ∨ y < -(3/10) ∨ 13/10 < y then none
    else some { s with age := age, vx := vx, vy := vy, x := x, y := y }

/-- The per-frame `update` of `createOrbAndParticles` (lines 870–942),
returning the new state and the trigger events of the frame.  The GPU
synchronisation is modelled separately by `syncGPU`; the vocal layer is a
separate subsystem modelled in the `Vocal` namespace. -/
def effectsUpdate (E : JSEnv) (s : EState) (p : EParams) (dt : ℚ) :
    EState × List EEvent :=
  let bands := getBandLevels p.freq
  let bpm := effectsClampBpm p.bpm
  let spb := 60 / bpm
  let globalRest0 := max 0 (s.globalRest - dt)
  let impactCD0 := max 0 (s.impactCD - dt)
  let shockCD0 := max 0 (s.shockCD - dt)
  let tc0 := s.typeCooldowns.map (fun c => max 0 (c - dt))
  let flash0 := max 0 (s.flash - dt * (45/10))
  let beatClock0 := s.beatClock + dt
  let s1 := { s with globalRest := globalRest0, impactCD := impactCD0,
                     shockCD := shockCD0, typeCooldowns := tc0,
                     flash := flash0, beatClock := beatClock0 }
  let r1 : EState × Option ℕ :=
    if spb ≤ beatClock0 then
      let s1b := { s1 with beatClock := beatClock0 - spb }
      if globalRest0 ≤ 0 then
        if E.rs s1b.k < 65/100 then
          pickAndFire E p.energy bpm { s1b with k := s1b.k + 1 }
        else ({ s1b with k := s1b.k + 1 }, none)
      else (s1b, none)
    else (s1, none)
  let s2 := r1.1
  let low := bands.low
  let bassEmaFast := s.bassEmaFast + (low - s.bassEmaFast) *
    min 1 ((if s.bassEmaFast < low then 55/100 else 9/100) * dt * 60)
  let bassEmaSlow := s.bassEmaSlow + (low - s.bassEmaSlow) * min 1 ((35/1000) * dt * 60)
  let peakHeld := max bassEmaFast (s.peakHeld - dt * (18/100))
  let onset := effectsOnset bassEmaFast bassEmaSlow low s.prevLow
  let thresh := 65/1000 - p.energy * (18/1000)
  let r2 : EState × Option ℕ :=
    if thresh < onset ∧ s2.impactCD ≤ 0 ∧ s2.globalRest ≤ 0 then
      let pf := pickAndFire E (min 1 (p.energy + 1/10)) bpm s2
      ({ pf.1 with impactCD := 22/100 }, pf.2)
    else (s2, none)
  let s3 := r2.1
  let drumHit := onset + max 0 (bands.mid - bassEmaSlow * (6/10)) * (55/100)
  let shockThresh := 32/100 - p.energy * (5/100)
  let r3 : EState × Bool :=
    if shockThresh < drumHit ∧ s3.shockCD ≤ 0 then
      let t := triggerShockwave E (min 1 (p.energy + 15/100)) bpm s3.smokes s3.jets s3.k
      ({ s3 with smokes := t.1, jets := t.2.1, flash := t.2.2.1, k := t.2.2.2,
                 globalRest := 28/100, shockCD := 18/10, impactCD := 32/100 }, true)
    else (s3, false)
  let s4 := r3.1
  let uj := updateJets E bands dt s4.jets s4.smokes s4.k
  let smokes' := (uj.2.1).filterMap (smokeStep E bands dt)
  ({ s4 with jets := uj.1, smokes := smokes', k := uj.2.2
             bassEmaFast := bassEmaFast, bassEmaSlow := bassEmaSlow
             prevLow := low, peakHeld := peakHeld },
   (match r1.2 with
    | some t => [EEvent.beatFire t]
    | none => []) ++
   (match r2.2 with
    | some t => [EEvent.onsetFire t]
    | none => []) ++
   (if r3.2 then [EEvent.shock] else []))

/-- `syncGPU`: publish the live smoke count as the shader's draw count and
write one uniform slot per live smoke.  The two uniform arrays are modelled
as functions from slot index to a 4-vector. -/
def syncGPU (smokes : List Smoke) (pos colr : ℕ → ℚ × ℚ × ℚ × ℚ) :
    ℕ × (ℕ → ℚ × ℚ × ℚ × ℚ) × (ℕ → ℚ × ℚ × ℚ × ℚ) :=
  (smokes.length,
   smokes.enum.foldl (fun p is =>
     Function.update p is.1 (is.2.x, is.2.y, is.2.radius, clamp01 (is.2.age / is.2.maxAge))) pos,
   smokes.enum.foldl (fun c is =>
     Function.update c is.1 (is.2.hue, is.2.seed, 1, is.2.sat)) colr)

end Effects

namespace Vocal

/-- The drop-detector component of the vocal layer's closure state
(`bassDropFast`, `bassDropSlow`, `dropCooldown`).  The other closure
variables of `createVocalLayer` (hue, spread, flash, the vocal EMAs) never
feed the drop-fire condition and are not part of this slice. -/
structure DropState where
  bassDropFast : ℚ
  bassDropSlow : ℚ
  dropCooldown : ℚ
deriving DecidableEq

/-- Full-band mean energy: `for (i...) fullBand += freq[i]/255; fullBand /= len`. -/
def fullBandAvg (freq : List ℕ) : ℚ :=
  Lightning.bandSum freq 0 freq.length / (freq.length : ℚ)

/-- One frame of the drop detector (lines 540–571 of the vocal layer's
`update`).  The whole block runs only under `if (freq.length > 0)`; the
returned Bool is `isDropHit`, and on a hit the cooldown is reset to 8
seconds. -/
def dropStep (st : DropState) (freq : List ℕ) (dt : ℚ) : DropState × Bool :=
  if freq.length = 0 then (st, false)
  else
    let fullBand := fullBandAvg freq
    let fast := st.bassDropFast + (fullBand - st.bassDropFast) * min 1 ((18/100) * dt * 60)
    let slow := st.bassDropSlow + (fullBand - st.bassDropSlow) * min 1 ((4/1000) * dt * 60)
    let cd := max 0 (st.dropCooldown - dt)
    if slow * (21/10) < fast ∧ 38/100 < fast ∧ cd ≤ 0 then
      (⟨fast, slow, 8⟩, true)
    else (⟨fast, slow, cd⟩, false)

/-- Fire/no-fire trace of the drop detector over a sequence of
(snapshot, dt) frames. -/
def dropFires (st : DropState) : List (List ℕ × ℚ) → List Bool
  | [] => []
  | i :: rest =>
      let r := dropStep st i.1 i.2
      r.2 :: dropFires r.1 rest

/-- State of the drop detector after a sequence of frames. -/
def dropRun (st : DropState) : List (List ℕ × ℚ) → DropState
  | [] => st
  | i :: rest => dropRun (dropStep st i.1 i.2).1 rest

end Vocal

/-- A JavaScript float division: a zero denominator yields NaN or ±Infinity
(a non-finite value), modelled as `none`. -/
def jsDivQ (a b : ℚ) : Option ℚ :=
  if b = 0 then none else some (a / b)

namespace EffectsA

/-- `getBandLevels` of `src/visualizer/effects.ts` lines 32–46: guarded
against the empty snapshot, but the per-band denominators `lowEnd`,
`midEnd - lowEnd`, `len - midEnd` are used unguarded. -/
def getBandLevels (data : List ℕ) : Option (ℚ × ℚ × ℚ) :=
  let len := data.length
  if len = 0 then some (0, 0, 0)
  else
    let lowEnd := jsFloorN ((len : ℚ) * (25/100))
    let midEnd := jsFloorN ((len : ℚ) * (6/10))
    let low := Effects.rawBandSum data 0 lowEnd
    let mid := Effects.rawBandSum data lowEnd midEnd
    let high := Effects.rawBandSum data midEnd len
    match jsDivQ low (lowEnd : ℚ), jsDivQ mid ((midEnd : ℚ) - (lowEnd : ℚ)),
        jsDivQ high ((len : ℚ) - (midEnd : ℚ)) with
    | some l, some m, some h => some (l / 255, m / 255, h / 255)
    | _, _, _ => none

end EffectsA

namespace EffectsB

/-- `getBandLevels` of `src/visualizer/effects.ts` lines 254–269: no guard
at all — neither for the empty snapshot nor for empty bands. -/
def getBandLevels (data : List ℕ) : Option (ℚ × ℚ × ℚ) :=
  let len := data.length
  let lowEnd := jsFloorN ((len : ℚ) * (25/100))
  let midEnd := jsFloorN ((len : ℚ) * (6/10))
  let low := Effects.rawBandSum data 0 lowEnd
  let mid := Effects.rawBandSum data lowEnd midEnd
  let high := Effects.rawBandSum data midEnd len
  match jsDivQ low (lowEnd : ℚ), jsDivQ mid ((midEnd : ℚ) - (lowEnd : ℚ)),
      jsDivQ high ((len : ℚ) - (midEnd : ℚ)) with
  | some l, some m, some h => some (l / 255, m / 255, h / 255)
  | _, _, _ => none

end EffectsB

namespace Lightning

/-- The ten interleaved floats of one vertex, in attribute order:
start, end, side, t, width, intensity, hue, life. -/
def segFloats (seg : Seg) (life hue side tVal : ℚ) : List ℚ :=
  [seg.x1, seg.y1, seg.x2, seg.y2, side, tVal, seg.width, seg.intensity, hue, life]

/-- Write a list of floats at consecutive buffer offsets. -/
def writeList (buf : ℕ → ℚ) (off : ℕ) : List ℚ → ℕ → ℚ
  | [] => buf
  | v :: rest => writeList (Function.update buf off v) (off + 1) rest

/-- The `(side, t)` corners of one quad, in source order. -/
def quadSides : List (ℚ × ℚ) :=
  [(-1, 0), (1, 0), (1, 1), (-1, 1)]

/-- Write the four vertices of one segment at slot `segIdx`. -/
def writeSeg (buf : ℕ → ℚ) (segIdx : ℕ) (seg : Seg) (life hue : ℚ) : ℕ → ℚ :=
  let base := segIdx * VERTS_PER_SEG * FLOATS_PER_VERT
  (List.range 4).foldl (fun b vi =>
    let st := quadSides.getD vi (0, 0)
    writeList b (base + vi * FLOATS_PER_VERT) (segFloats seg life hue st.1 st.2)) buf

/-- `uploadToGPU` (lines 400–437): pack every live segment of every bolt
into the flat buffer, counting live segments, with the inner loop stopping
at `MAX_SEGS`; the caller then sets the draw range to
`segIdx * IDX_PER_SEG`.  Returns the written buffer and `segIdx`. -/
def uploadToGPU (bolts : List Bolt) (buf : ℕ → ℚ) : (ℕ → ℚ) × ℕ :=
  bolts.foldl (fun (acc : (ℕ → ℚ) × ℕ) bolt =>
    let life := bolt.age / bolt.maxAge
    bolt.segs.foldl (fun (acc2 : (ℕ → ℚ) × ℕ) seg =>
      if MAX_SEGS ≤ acc2.2 then acc2
      else (writeSeg acc2.1 acc2.2 seg life bolt.hue, acc2.2 + 1)) acc) (buf, 0)

end Lightning

/-! Specification-side definitions, written from the spec's words, to be
compared with the source embeddings above. -/

/-- Spec, §4.1: a band level is the sum of the samples in the index range,
divided by the range length (guarded to 1), divided by the maximum
representable sample value 255. -/
def specBandAvg (data : List ℕ) (lo hi : ℕ) : ℚ :=
  (((data.drop lo).take (hi - lo)).map (fun v : ℕ => (v : ℚ))).sum /
    max 1 ((hi : ℚ) - (lo : ℚ)) / 255

/-- Spec, §4.2: `rate_effective = min(1, rate_constant * dt * referenceFrameRate)`
with a reference frame rate of 60. -/
def specRate (r dt : ℚ) : ℚ :=
  min 1 (r * dt * 60)

/-- Spec, §4.2: one EMA step at an effective rate. -/
def specEma (prev v rate : ℚ) : ℚ :=
  prev + (v - prev) * rate

/-- Spec, §4.2: onset strength = `max(0, fast − slow)` plus `k` times the
non-negative frame-to-frame rise. -/
def specOnset (fast slow cur prev kAttack : ℚ) : ℚ :=
  max 0 (fast - slow) + kAttack * max 0 (cur - prev)

/-! ## Pool lemmas (capacity and FIFO eviction) -/

theorem pushPool_length {α : Type} (cap : ℕ) (p : List α) (x : α) :
    (pushPool cap p x).length = (if cap ≤ p.length then p.length - 1 else p.length) + 1 := by
  unfold pushPool
  split <;> simp

theorem pushPool_length_le {α : Type} (cap : ℕ) (p : List α) (x : α)
    (hcap : 1 ≤ cap) (h : p.length ≤ cap) : (pushPool cap p x).length ≤ cap := by
  rw [pushPool_length]
  split <;> omega

theorem pushPool_at_capacity {α : Type} (cap : ℕ) (p : List α) (x : α)
    (h : p.length = cap) : pushPool cap p x = p.drop 1 ++ [x] := by
  unfold pushPool
  rw [if_pos (by omega)]

theorem pushPool_below_capacity {α : Type} (cap : ℕ) (p : List α) (x : α)
    (h : p.length < cap) : pushPool cap p x = p ++ [x] := by
  unfold pushPool
  rw [if_neg (by omega)]

theorem foldl_pushPool_length_le {α : Type} (cap : ℕ) (p : List α) (xs : List α)
    (hcap : 1 ≤ cap) (h : p.length ≤ cap) :
    (List.foldl (pushPool cap) p xs).length ≤ cap := by
  induction xs generalizing p with
  | nil => exact h
  | cons x xs ih =>
      exact ih (pushPool cap p x) (pushPool_length_le cap p x hcap h)

theorem foldl_pushPool_eq_drop {α : Type} (cap : ℕ) (p xs : List α)
    (hcap : 1 ≤ cap) (h : p.length ≤ cap) :
    List.foldl (pushPool cap) p xs = (p ++ xs).drop (p.length + xs.length - cap) := by
  induction xs generalizing p with
  | nil => simp [Nat.sub_eq_zero_of_le h]
  | cons x xs ih =>
      rw [List.foldl_cons]
      by_cases hc : cap ≤ p.length
      · have hpc : p.length = cap := le_antisymm h hc
        have hq : (pushPool cap p x).length = cap := by
          rw [pushPool_length, if_pos hc]; omega
        rw [ih (pushPool cap p x) (le_of_eq hq),
          pushPool_at_capacity cap p x hpc]
        have h1 : List.drop 1 p ++ [x] ++ xs = (p ++ x :: xs).drop 1 := by
          rw [List.drop_append_of_le_length (by omega), List.append_assoc]
          simp
        rw [h1, List.drop_drop]
        have h2 : 1 + ((List.drop 1 p ++ [x]).length + xs.length - cap)
            = p.length + (x :: xs).length - cap := by
          simp only [List.length_append, List.length_drop, List.length_cons,
            List.length_nil]
          omega
        rw [h2]
      · have hlt : p.length < cap := lt_of_not_ge hc
        have hq : (pushPool cap p x).length = p.length + 1 := by
          rw [pushPool_length, if_neg hc]
        rw [ih (pushPool cap p x) (by omega),
          pushPool_below_capacity cap p x hlt, List.append_assoc]
        simp only [List.singleton_append]
        have h2 : (p ++ [x]).length + xs.length - cap
            = p.length + (x :: xs).length - cap := by
          simp only [List.length_append, List.length_cons, List.length_nil]
          omega
        rw [h2]

theorem mem_foldl_pushPool {α : Type} (cap : ℕ) (p xs : List α) (b : α)
    (h : b ∈ List.foldl (pushPool cap) p xs) : b ∈ p ∨ b ∈ xs := by
  induction xs generalizing p with
  | nil => exact Or.inl h
  | cons x xs ih =>
      rcases ih (pushPool cap p x) h with h1 | h1
      · unfold pushPool at h1
        rcases List.mem_append.1 h1 with h2 | h2
        · split at h2
          · exact Or.inl (List.mem_of_mem_drop h2)
          · exact Or.inl h2
        · simp at h2
          subst h2
          exact Or.inr (List.mem_cons_self _ _)
      · exact Or.inr (List.mem_cons_of_mem _ h1)

/-- A counter-threaded loop of FIFO pool insertions equals a plain fold of
`pushPool` over the elements built at their respective stream positions. -/
theorem foldl_counter_push {α : Type} (cap c : ℕ) (f : ℕ → ℕ → α) :
    ∀ (n : ℕ) (p : List α) (k0 : ℕ),
      (List.range n).foldl (fun acc i => (pushPool cap acc.1 (f i acc.2), acc.2 + c)) (p, k0)
        = (List.foldl (pushPool cap) p
            ((List.range n).map (fun i => f i (k0 + c * i))), k0 + c * n) := by
  intro n
  induction n with
  | zero => simp
  | succ n ih =>
      intro p k0
      rw [List.range_succ, List.foldl_append, List.map_append, List.foldl_append, ih]
      simp only [List.foldl_cons, List.foldl_nil, List.map_cons, List.map_nil,
        Prod.mk.injEq]
      exact ⟨trivial, by ring⟩

/-- Dummy bolt used by closed witness instances. -/
def dummyBolt : Lightning.Bolt :=
  ⟨[], 0, 1, 0⟩

/-- A concrete stand-in environment for closed witness instances: an
in-range constant random stream and simple stand-ins for the abstracted
`Math` functions. -/
def stubEnv : JSEnv :=
  { rs := fun _ => 1/2, hyp := fun _ _ => 0, cos := fun _ => 1,
    sin := fun _ => 0, pow := fun _ _ => 1, pi := 314/100, aspect := 1 }

/-- C1.  For every primitive pool (bolts capacity 24, smokes capacity 180,
jets capacity 6), any sequence of spawn operations keeps the pool within
its capacity, and a spawn performed at capacity evicts exactly the oldest
surviving entry (the list head) before appending the new one; `spawnBolt`,
`addSmoke` and the jet triggers are all `pushPool` insertions. -/
theorem c1_pool_capacity_fifo :
    (∀ (p xs : List Lightning.Bolt), p.length ≤ Lightning.MAX_BOLTS →
        (List.foldl (pushPool Lightning.MAX_BOLTS) p xs).length ≤ Lightning.MAX_BOLTS) ∧
    (∀ (p xs : List Effects.Smoke), p.length ≤ Effects.MAX_SMOKES →
        (List.foldl (pushPool Effects.MAX_SMOKES) p xs).length ≤ Effects.MAX_SMOKES) ∧
    (∀ (p xs : List Effects.Jet), p.length ≤ Effects.MAX_JETS →
        (List.foldl (pushPool Effects.MAX_JETS) p xs).length ≤ Effects.MAX_JETS) ∧
    (∀ (E : JSEnv) (x1 y1 x2 y2 hue energy bpm : ℚ) (maxAge : Option ℚ)
        (bolts : List Lightning.Bolt) (k : ℕ),
        (Lightning.spawnBolt E x1 y1 x2 y2 hue energy bpm maxAge bolts k).1 =
          pushPool Lightning.MAX_BOLTS bolts
            (Lightning.makeBolt E ⟨x1, y1, x2, y2, hue, energy, bpm, maxAge⟩ k).1) ∧
    (∀ (E : JSEnv) (x1 y1 x2 y2 hue energy bpm : ℚ) (maxAge : Option ℚ)
        (bolts : List Lightning.Bolt) (k : ℕ),
        bolts.length = Lightning.MAX_BOLTS →
        (Lightning.spawnBolt E x1 y1 x2 y2 hue energy bpm maxAge bolts k).1 =
          bolts.drop 1 ++
            [(Lightning.makeBolt E ⟨x1, y1, x2, y2, hue, energy, bpm, maxAge⟩ k).1]) ∧
    (∀ (E : JSEnv) (x y vx vy hue sat : ℚ) (sr : ℚ × ℚ) (inten ss ls : ℚ)
        (smokes : List Effects.Smoke) (k : ℕ),
        ∃ sm, Effects.addSmoke E x y vx vy hue sat sr inten ss ls smokes k =
          (pushPool Effects.MAX_SMOKES smokes sm, k + 3)) ∧
    (∀ (E : JSEnv) (energy bpm : ℚ) (jets : List Effects.Jet) (k : ℕ),
        ∃ j k2, Effects.triggerPlume E energy bpm jets k =
          (pushPool Effects.MAX_JETS jets j, k2)) ∧
    (∀ {α : Type} (cap : ℕ) (p : List α) (x : α), p.length = cap →
        pushPool cap p x = p.drop 1 ++ [x]) := by
  refine ⟨?_, ?_, ?_, ?_, ?_, ?_, ?_, ?_⟩
  · exact fun p xs h => foldl_pushPool_length_le _ p xs (by norm_num [Lightning.MAX_BOLTS]) h
  · exact fun p xs h => foldl_pushPool_length_le _ p xs (by norm_num [Effects.MAX_SMOKES]) h
  · exact fun p xs h => foldl_pushPool_length_le _ p xs (by norm_num [Effects.MAX_JETS]) h
  · intro E x1 y1 x2 y2 hue energy bpm maxAge bolts k
    rfl
  · intro E x1 y1 x2 y2 hue energy bpm maxAge bolts k h
    exact (congrArg _ rfl).trans (pushPool_at_capacity _ bolts _ h)
  · intro E x y vx vy hue sat sr inten ss ls smokes k
    exact ⟨_, rfl⟩
  · intro E energy bpm jets k
    exact ⟨_, _, rfl⟩
  · intro α cap p x h
    exact pushPool_at_capacity cap p x h

/-- Witness for C1 at concrete inputs: a full 24-bolt pool evicts its head
on the next spawn, and a 30-spawn sequence from the empty pool stays within
capacity. -/
theorem c1_pool_capacity_fifo_witness :
    ((List.replicate 24 dummyBolt).length = Lightning.MAX_BOLTS) ∧
    (pushPool Lightning.MAX_BOLTS (List.replicate 24 dummyBolt) dummyBolt =
      (List.replicate 24 dummyBolt).drop 1 ++ [dummyBolt]) ∧
    (([] : List Lightning.Bolt).length ≤ Lightning.MAX_BOLTS) ∧
    (List.foldl (pushPool Lightning.MAX_BOLTS) []
        (List.replicate 30 dummyBolt)).length ≤ Lightning.MAX_BOLTS :=
  ⟨by decide,
   c1_pool_capacity_fifo.2.2.2.2.2.2.2 Lightning.MAX_BOLTS
     (List.replicate 24 dummyBolt) dummyBolt (by decide),
   by decide,
   c1_pool_capacity_fifo.1 [] (List.replicate 30 dummyBolt) (by decide)⟩

/-- C10.  A single `triggerShockwave` call builds 8 radial arms but the
jets pool holds only `MAX_JETS = 6`, so afterwards the pool is exactly the
last 6 of the 8 arms of that call: the first 2 arms and every pre-existing
jet have been evicted. -/
theorem c10_shockwave_jets (E : JSEnv) (energy bpm : ℚ)
    (smokes : List Effects.Smoke) (jets : List Effects.Jet) (k : ℕ)
    (h : jets.length ≤ Effects.MAX_JETS) :
    (Effects.triggerShockwave E energy bpm smokes jets k).2.1 =
      ((List.range 8).map (fun i => Effects.shockArm E energy bpm
          (38/100 + E.rs (k + 1) * (24/100)) (38/100 + E.rs (k + 2) * (24/100))
          (E.rs k) i (k + 3 + 3 * i))).drop 2 ∧
    ((Effects.triggerShockwave E energy bpm smokes jets k).2.1).length = 6 := by
  have harm : (Effects.triggerShockwave E energy bpm smokes jets k).2.1 =
      List.foldl (pushPool Effects.MAX_JETS) jets
        ((List.range 8).map (fun i => Effects.shockArm E energy bpm
          (38/100 + E.rs (k + 1) * (24/100)) (38/100 + E.rs (k + 2) * (24/100))
          (E.rs k) i (k + 3 + 3 * i))) := by
    show ((List.range 8).foldl (fun (acc : List Effects.Jet × ℕ) i =>
      (pushPool Effects.MAX_JETS acc.1 (Effects.shockArm E energy bpm
        (38/100 + E.rs (k + 1) * (24/100)) (38/100 + E.rs (k + 2) * (24/100))
        (E.rs k) i acc.2), acc.2 + 3)) (jets, k + 3)).1 = _
    rw [foldl_counter_push Effects.MAX_JETS 3
      (fun i kk => Effects.shockArm E energy bpm
        (38/100 + E.rs (k + 1) * (24/100)) (38/100 + E.rs (k + 2) * (24/100))
        (E.rs k) i kk) 8 jets (k + 3)]
  rw [harm, foldl_pushPool_eq_drop _ _ _ (by norm_num [Effects.MAX_JETS]) h]
  have hlen : ((List.range 8).map (fun i => Effects.shockArm E energy bpm
      (38/100 + E.rs (k + 1) * (24/100)) (38/100 + E.rs (k + 2) * (24/100))
      (E.rs k) i (k + 3 + 3 * i))).length = 8 := by simp
  constructor
  · rw [show jets.length + ((List.range 8).map (fun i => Effects.shockArm E energy bpm
      (38/100 + E.rs (k + 1) * (24/100)) (38/100 + E.rs (k + 2) * (24/100))
      (E.rs k) i (k + 3 + 3 * i))).length - Effects.MAX_JETS = jets.length + 2 by
        rw [hlen]; simp only [Effects.MAX_JETS]; omega]
    rw [← List.drop_drop, List.drop_left]
  · rw [List.length_drop]
    simp only [List.length_append, hlen, Effects.MAX_JETS]
    omega

/-- Witness for C10: from an empty jets pool, the shockwave leaves exactly
6 jets. -/
theorem c10_shockwave_jets_witness :
    (([] : List Effects.Jet).length ≤ Effects.MAX_JETS) ∧
    ((Effects.triggerShockwave stubEnv 1 120 [] [] 0).2.1).length = 6 :=
  ⟨by decide, (c10_shockwave_jets stubEnv 1 120 [] [] 0 (by decide)).2⟩

/-- C2 (code bug).  The `getBandLevels` at `effects.ts:254` divides 0 by 0
on the empty snapshot (NaN band levels, modelled as `none`), and the
variant at `effects.ts:32` divides 0 by 0 on an all-zero snapshot of
length 1, although the spec requires all-zero levels with no division by
zero; the particle engine's fully guarded variant returns zero levels as
specified. -/
theorem c2_band_levels_div_by_zero :
    EffectsB.getBandLevels [] = none ∧
    EffectsA.getBandLevels [0] = none ∧
    EffectsA.getBandLevels [] = some (0, 0, 0) ∧
    EffectsA.getBandLevels [0, 0, 0, 0] = some (0, 0, 0) ∧
    Effects.getBandLevels [] = ⟨0, 0, 0⟩ ∧
    Effects.getBandLevels [0, 0, 0, 0] = ⟨0, 0, 0⟩ := by
  refine ⟨?_, ?_, ?_, ?_, ?_, ?_⟩
  all_goals norm_num [EffectsA.getBandLevels, EffectsB.getBandLevels,
    Effects.getBandLevels, Effects.rawBandSum, jsDivQ, jsFloorN,
    List.range']
  all_goals simp only [show Int.toNat 2 = 2 from rfl]
  all_goals norm_num

/-- C5 counterexample.  `bpm` is not clamped to [70, 190]: the lightning
system's beat period `60 / max(70, bpm)` at bpm = 1000 is 0.06 s, faster
than the 60/190 s the claimed clamp would allow, and the particle engine
clamps the low end at 72, not 70. -/
theorem c5_bpm_clamp_counterexample :
    Lightning.lightningSpb 1000 = 6/100 ∧
    ¬(Lightning.lightningSpb 1000 = 60 / (190 : ℚ)) ∧
    Effects.effectsClampBpm 70 = 72 ∧ ¬((72 : ℚ) = 70) := by
  refine ⟨?_, ?_, ?_, by norm_num⟩ <;>
    norm_num [Lightning.lightningSpb, Effects.effectsClampBpm]

/-- C5 as amended.  The lightning system clamps bpm only from below at 70
(so its beat period is positive and at most 6/7 s, but has no lower bound:
large bpm is not clamped); the particle engine clamps bpm to [72, 190]
(falsy bpm replaced by 120), so its beat period lies in [6/19, 5/6] s.  In
both systems the denominator is at least 70, so out-of-range bpm (bpm ≤ 0
included) never produces a division by zero. -/
theorem c5_bpm_clamp_amended (bpm : ℚ) :
    (70 ≤ max 70 bpm ∧ 0 < Lightning.lightningSpb bpm ∧
      Lightning.lightningSpb bpm ≤ 6/7) ∧
    (72 ≤ Effects.effectsClampBpm bpm ∧ Effects.effectsClampBpm bpm ≤ 190 ∧
      6/19 ≤ 60 / Effects.effectsClampBpm bpm ∧
      60 / Effects.effectsClampBpm bpm ≤ 5/6) := by
  have h1 : (70 : ℚ) ≤ max 70 bpm := le_max_left _ _
  have h2 : (0 : ℚ) < max 70 bpm := lt_of_lt_of_le (by norm_num) h1
  have hcl : (72 : ℚ) ≤ Effects.effectsClampBpm bpm := le_max_left _ _
  have hcu : Effects.effectsClampBpm bpm ≤ 190 := by
    unfold Effects.effectsClampBpm
    exact max_le (by norm_num) (min_le_left _ _)
  have hcp : (0 : ℚ) < Effects.effectsClampBpm bpm :=
    lt_of_lt_of_le (by norm_num) hcl
  refine ⟨⟨h1, ?_, ?_⟩, hcl, hcu, ?_, ?_⟩
  · exact div_pos (by norm_num) h2
  · calc Lightning.lightningSpb bpm = 60 / max 70 bpm := rfl
      _ ≤ 60 / 70 := div_le_div_of_nonneg_left (by norm_num) (by norm_num) h1
      _ = 6/7 := by norm_num
  · calc (6/19 : ℚ) = 60 / 190 := by norm_num
      _ ≤ 60 / Effects.effectsClampBpm bpm :=
          div_le_div_of_nonneg_left (by norm_num) hcp hcu
  · calc 60 / Effects.effectsClampBpm bpm ≤ 60 / 72 :=
          div_le_div_of_nonneg_left (by norm_num) (by norm_num) hcl
      _ ≤ 5/6 := by norm_num

/-! ## C3: drop-detector rate limiting -/

namespace Vocal

theorem dropStep_fired (st : DropState) (freq : List ℕ) (dt : ℚ)
    (h : (dropStep st freq dt).2 = true) :
    (dropStep st freq dt).1.bassDropSlow * (21/10) < (dropStep st freq dt).1.bassDropFast ∧
    38/100 < (dropStep st freq dt).1.bassDropFast ∧
    max 0 (st.dropCooldown - dt) ≤ 0 ∧
    (dropStep st freq dt).1.dropCooldown = 8 := by
  unfold dropStep at h ⊢
  by_cases hlen : freq.length = 0
  · rw [if_pos hlen] at h
    exact absurd h (by simp)
  · rw [if_neg hlen] at h ⊢
    dsimp only at h ⊢
    split at h
    · next hc =>
        rw [if_pos hc]
        exact ⟨hc.1, hc.2.1, hc.2.2, rfl⟩
    · next hc =>
        simp at h

theorem dropStep_cd_le (st : DropState) (freq : List ℕ) (dt : ℚ)
    (hdt : 0 ≤ dt) :
    st.dropCooldown - dt ≤ (dropStep st freq dt).1.dropCooldown := by
  unfold dropStep
  by_cases hlen : freq.length = 0
  · rw [if_pos hlen]
    show st.dropCooldown - dt ≤ st.dropCooldown
    linarith
  · rw [if_neg hlen]
    dsimp only
    split
    · next hc =>
        show st.dropCooldown - dt ≤ 8
        have h8 : max 0 (st.dropCooldown - dt) ≤ 0 := hc.2.2
        have hr : st.dropCooldown - dt ≤ max 0 (st.dropCooldown - dt) :=
          le_max_right _ _
        linarith
    · show st.dropCooldown - dt ≤ max 0 (st.dropCooldown - dt)
      exact le_max_right _ _

theorem dropFires_length (st : DropState) (l : List (List ℕ × ℚ)) :
    (dropFires st l).length = l.length := by
  induction l generalizing st with
  | nil => rfl
  | cons x xs ih => simp [dropFires, ih]

theorem dropFires_append (st : DropState) (l1 l2 : List (List ℕ × ℚ)) :
    dropFires st (l1 ++ l2) = dropFires st l1 ++ dropFires (dropRun st l1) l2 := by
  induction l1 generalizing st with
  | nil => rfl
  | cons x xs ih => simp [dropFires, dropRun, ih]

theorem dropFires_true_lt_length (st : DropState) (l : List (List ℕ × ℚ)) (m : ℕ)
    (h : (dropFires st l).getD m false = true) : m < l.length := by
  by_contra hm
  rw [List.getD_eq_default] at h
  · exact Bool.false_ne_true h
  · rw [dropFires_length]
    omega

theorem sum_dt_nonneg (l : List (List ℕ × ℚ)) (hdt : ∀ p ∈ l, 0 ≤ p.2) :
    0 ≤ (l.map (fun p => p.2)).sum := by
  apply List.sum_nonneg
  intro x hx
  rcases List.mem_map.1 hx with ⟨p, hp, rfl⟩
  exact hdt p hp

/-- Core cooldown bound: a fire at index `m` requires the elapsed simulated
time up to and including frame `m` to be at least the starting cooldown. -/
theorem dropFires_cooldown_bound (l : List (List ℕ × ℚ)) :
    ∀ (st : DropState) (m : ℕ), (∀ p ∈ l, 0 ≤ p.2) →
      (dropFires st l).getD m false = true →
      st.dropCooldown ≤ (((l.take (m + 1)).map (fun p => p.2)).sum) := by
  induction l with
  | nil =>
      intro st m _ h
      simp [dropFires] at h
  | cons x xs ih =>
      intro st m hdt h
      have hdtx : 0 ≤ x.2 := hdt x (List.mem_cons_self _ _)
      have hdtxs : ∀ p ∈ xs, 0 ≤ p.2 := fun p hp => hdt p (List.mem_cons_of_mem _ hp)
      cases m with
      | zero =>
          simp only [dropFires, List.getD_cons_zero] at h
          have hcd := (dropStep_fired st x.1 x.2 h).2.2.1
          have hr : st.dropCooldown - x.2 ≤ max 0 (st.dropCooldown - x.2) :=
            le_max_right _ _
          have hsum : ((List.take 1 (x :: xs)).map (fun p => p.2)).sum = x.2 := by
            simp
          rw [hsum]
          linarith
      | succ m =>
          simp only [dropFires, List.getD_cons_succ] at h
          have hih := ih (dropStep st x.1 x.2).1 m hdtxs h
          have hsuffix : 0 ≤ ((xs.take (m + 1)).map (fun p => p.2)).sum :=
            sum_dt_nonneg _ (fun p hp => hdtxs p (List.mem_of_mem_take hp))
          have hcd : st.dropCooldown - x.2 ≤ (dropStep st x.1 x.2).1.dropCooldown :=
            dropStep_cd_le st x.1 x.2 hdtx
          have hsum : ((List.take (m + 1 + 1) (x :: xs)).map (fun p => p.2)).sum
              = x.2 + ((xs.take (m + 1)).map (fun p => p.2)).sum := by
            simp
          rw [hsum]
          linarith

theorem dropRun_take_fired (l : List (List ℕ × ℚ)) :
    ∀ (st : DropState) (i : ℕ), (dropFires st l).getD i false = true →
      (dropRun st (l.take (i + 1))).dropCooldown = 8 := by
  induction l with
  | nil =>
      intro st i h
      simp [dropFires] at h
  | cons x xs ih =>
      intro st i h
      cases i with
      | zero =>
          simp only [dropFires, List.getD_cons_zero] at h
          have := (dropStep_fired st x.1 x.2 h).2.2.2
          simpa [dropRun] using this
      | succ i =>
          simp only [dropFires, List.getD_cons_succ] at h
          simpa [dropRun] using ih (dropStep st x.1 x.2).1 i h

end Vocal

/-- C3.  The drop detector fires only when its fast full-band EMA exceeds
2.1× the very slowly adapting slow EMA, the fast level exceeds the 0.38
floor and the drop cooldown has elapsed; firing resets the cooldown to 8
seconds, so for every input sequence (with nonnegative frame times) two
drop events are always at least 8 simulated seconds apart. -/
theorem c3_drop_rate_limit :
    (∀ (st : Vocal.DropState) (freq : List ℕ) (dt : ℚ),
        (Vocal.dropStep st freq dt).2 = true →
        (Vocal.dropStep st freq dt).1.bassDropSlow * (21/10) <
            (Vocal.dropStep st freq dt).1.bassDropFast ∧
          38/100 < (Vocal.dropStep st freq dt).1.bassDropFast ∧
          max 0 (st.dropCooldown - dt) ≤ 0 ∧
          (Vocal.dropStep st freq dt).1.dropCooldown = 8) ∧
    (∀ (st : Vocal.DropState) (l : List (List ℕ × ℚ)) (i j : ℕ),
        i < j → (∀ p ∈ l, 0 ≤ p.2) →
        (Vocal.dropFires st l).getD i false = true →
        (Vocal.dropFires st l).getD j false = true →
        8 ≤ (((l.drop (i + 1)).take (j - i)).map (fun p => p.2)).sum) := by
  refine ⟨Vocal.dropStep_fired, ?_⟩
  intro st l i j hij hdt hi hj
  have hjlen : j < l.length := Vocal.dropFires_true_lt_length st l j hj
  have hsplit : l = l.take (i + 1) ++ l.drop (i + 1) := (List.take_append_drop _ l).symm
  have hlen1 : (l.take (i + 1)).length = i + 1 := by
    rw [List.length_take]
    omega
  have hfj : (Vocal.dropFires (Vocal.dropRun st (l.take (i + 1)))
      (l.drop (i + 1))).getD (j - (i + 1)) false = true := by
    have := hj
    rw [hsplit, Vocal.dropFires_append] at this
    rwa [List.getD_append_right _ _ _ _ (by rw [Vocal.dropFires_length, hlen1]; omega),
      Vocal.dropFires_length, hlen1] at this
  have hcd8 : (Vocal.dropRun st (l.take (i + 1))).dropCooldown = 8 :=
    Vocal.dropRun_take_fired l st i hi
  have hdt' : ∀ p ∈ l.drop (i + 1), 0 ≤ p.2 :=
    fun p hp => hdt p (List.mem_of_mem_drop hp)
  have := Vocal.dropFires_cooldown_bound (l.drop (i + 1))
    (Vocal.dropRun st (l.take (i + 1))) (j - (i + 1)) hdt' hfj
  rw [hcd8] at this
  have hidx : j - (i + 1) + 1 = j - i := by omega
  rwa [hidx] at this

/-- Concrete input whose drop detector fires twice, 9 simulated seconds
apart: a loud frame, one 8-second silent frame, and a loud frame. -/
def c3Frames : List (List ℕ × ℚ) :=
  [([255], 1), ([0], 8), ([255], 1)]

/-- Witness for C3: on `c3Frames` the detector fires at frames 0 and 2,
and the theorem yields the 8-second separation. -/
theorem c3_drop_rate_limit_witness :
    (0 < 2 ∧ (∀ p ∈ c3Frames, 0 ≤ p.2) ∧
      (Vocal.dropFires ⟨0, 0, 0⟩ c3Frames).getD 0 false = true ∧
      (Vocal.dropFires ⟨0, 0, 0⟩ c3Frames).getD 2 false = true) ∧
    8 ≤ (((c3Frames.drop 1).take 2).map (fun p => p.2)).sum := by
  have h1 : (∀ p ∈ c3Frames, 0 ≤ p.2) := by
    intro p hp
    simp only [c3Frames, List.mem_cons, List.not_mem_nil, or_false] at hp
    rcases hp with rfl | rfl | rfl <;> norm_num
  have h2 : (Vocal.dropFires ⟨0, 0, 0⟩ c3Frames).getD 0 false = true := by
    norm_num [c3Frames, Vocal.dropFires, Vocal.dropStep, Vocal.fullBandAvg,
      Lightning.bandSum, List.range', min_def, max_def]
  have h3 : (Vocal.dropFires ⟨0, 0, 0⟩ c3Frames).getD 2 false = true := by
    norm_num [c3Frames, Vocal.dropFires, Vocal.dropStep, Vocal.fullBandAvg,
      Lightning.bandSum, List.range', min_def, max_def]
  exact ⟨⟨by norm_num, h1, h2, h3⟩,
    c3_drop_rate_limit.2 ⟨0, 0, 0⟩ c3Frames 0 2 (by norm_num) h1 h2 h3⟩

/-! ## C4: generator termination and segment cap -/

namespace Lightning

/-- `generateSegments` appends at most up to the 508-segment guard: the
output extends the input list and never exceeds `MAX_SEGS_PER_BOLT - 4`
entries. -/
theorem generateSegments_bound (E : JSEnv) :
    ∀ (x1 y1 x2 y2 : ℚ) (opts : GenOpts) (depth : ℕ) (width intensity : ℚ)
      (out : List Seg) (k : ℕ),
      out.length ≤ MAX_SEGS_PER_BOLT - 4 →
      (generateSegments E x1 y1 x2 y2 opts depth width intensity out k).1.length
          ≤ MAX_SEGS_PER_BOLT - 4 ∧
        ∃ l, (generateSegments E x1 y1 x2 y2 opts depth width intensity out k).1
          = out ++ l := by
  intro x1 y1 x2 y2 opts depth width intensity out k
  induction x1, y1, x2, y2, opts, depth, width, intensity, out, k
    using generateSegments.induct E with
  | case1 x1 y1 x2 y2 opts depth width intensity out k hcap =>
      intro hout
      rw [generateSegments, if_pos hcap]
      exact ⟨hout, [], by simp⟩
  | case2 x1 y1 x2 y2 opts depth width intensity out k hcap dx dy lenAsp hstop =>
      intro hout
      unfold_let dx dy lenAsp at hstop
      rw [generateSegments, if_neg hcap]
      dsimp only
      rw [dif_pos hstop]
      refine ⟨?_, [⟨x1, y1, x2, y2, width, intensity⟩], rfl⟩
      simp only [List.length_append, List.length_cons, List.length_nil,
        MAX_SEGS_PER_BOLT] at *
      omega
  | case3 x1 y1 x2 y2 opts depth width intensity out k hcap dx dy lenAsp hstop
      mx my pc disp jx jy nextW nextI r1 r2 hdep hbr angle cosA sinA rdx rdy
      ih1 ih2 ih3 ih4 ih5 =>
      intro hout
      unfold_let dx dy lenAsp mx my pc disp jx jy nextW nextI r1 r2 at hstop hbr ih1 ih3 ih5
      unfold_let angle cosA sinA rdx rdy at ih5
      rw [generateSegments, if_neg hcap]
      dsimp only
      rw [dif_neg hstop, if_pos hdep, if_pos hbr]
      obtain ⟨hA, lA, hAe⟩ := ih1 hout
      obtain ⟨hB, lB, hBe⟩ := ih3 hA
      obtain ⟨hC, lC, hCe⟩ := ih5 hB
      exact ⟨hC, lA ++ (lB ++ lC), by rw [hCe, hBe, hAe]; simp [List.append_assoc]⟩
  | case4 x1 y1 x2 y2 opts depth width intensity out k hcap dx dy lenAsp hstop
      mx my pc disp jx jy nextW nextI r1 r2 hdep hbr ih1 ih2 ih3 =>
      intro hout
      unfold_let dx dy lenAsp mx my pc disp jx jy nextW nextI r1 r2 at hstop hbr ih1 ih3
      rw [generateSegments, if_neg hcap]
      dsimp only
      rw [dif_neg hstop, if_pos hdep, if_neg hbr]
      obtain ⟨hA, lA, hAe⟩ := ih1 hout
      obtain ⟨hB, lB, hBe⟩ := ih3 hA
      exact ⟨hB, lA ++ lB, by rw [hBe, hAe]; simp [List.append_assoc]⟩
  | case5 x1 y1 x2 y2 opts depth width intensity out k hcap dx dy lenAsp hstop
      mx my pc disp jx jy nextW nextI r1 hdep ih1 ih2 ih3 =>
      intro hout
      unfold_let dx dy lenAsp mx my pc disp jx jy nextW nextI r1 at hstop ih1 ih3
      rw [generateSegments, if_neg hcap]
      dsimp only
      rw [dif_neg hstop, if_neg hdep]
      obtain ⟨hA, lA, hAe⟩ := ih1 hout
      obtain ⟨hB, lB, hBe⟩ := ih3 hA
      exact ⟨hB, lA ++ lB, by rw [hBe, hAe]; simp [List.append_assoc]⟩

/-- `makeBolt` starts from an empty segment list, so one bolt holds at most
508 segments. -/
theorem makeBolt_segs_le (E : JSEnv) (a : MakeBoltArgs) (k : ℕ) :
    (makeBolt E a k).1.segs.length ≤ MAX_SEGS_PER_BOLT - 4 := by
  unfold makeBolt
  dsimp only
  split
  · exact (generateSegments_bound E _ _ _ _ _ _ _ _ [] k (by simp)).1
  · exact (generateSegments_bound E _ _ _ _ _ _ _ _ [] k (by simp)).1

end Lightning

/-- C4 as amended.  The midpoint-displacement recursion is total (it is
defined by recursion on the decreasing depth argument, every recursive call
passing depth−1 or depth−2), it only appends to the accumulated segment
list, and the per-bolt segment count never exceeds
`MAX_SEGS_PER_BOLT - 4 = 508` (hence never exceeds `MAX_SEGS_PER_BOLT =
512`); once the cap is reached no further segment is emitted, and no
existing segment is dropped. -/
theorem c4_generator_cap :
    (∀ (E : JSEnv) (x1 y1 x2 y2 : ℚ) (opts : Lightning.GenOpts) (depth : ℕ)
        (width intensity : ℚ) (out : List Lightning.Seg) (k : ℕ),
        out.length ≤ Lightning.MAX_SEGS_PER_BOLT - 4 →
        (Lightning.generateSegments E x1 y1 x2 y2 opts depth width intensity
            out k).1.length ≤ Lightning.MAX_SEGS_PER_BOLT - 4 ∧
          ∃ l, (Lightning.generateSegments E x1 y1 x2 y2 opts depth width intensity
            out k).1 = out ++ l) ∧
    (∀ (E : JSEnv) (a : Lightning.MakeBoltArgs) (k : ℕ),
        (Lightning.makeBolt E a k).1.segs.length ≤ Lightning.MAX_SEGS_PER_BOLT) :=
  ⟨fun E x1 y1 x2 y2 opts depth width intensity out k h =>
      Lightning.generateSegments_bound E x1 y1 x2 y2 opts depth width intensity out k h,
   fun E a k => le_trans (Lightning.makeBolt_segs_le E a k)
      (by norm_num [Lightning.MAX_SEGS_PER_BOLT])⟩

/-- Witness for C4 at a concrete input. -/
theorem c4_generator_cap_witness :
    (([] : List Lightning.Seg).length ≤ Lightning.MAX_SEGS_PER_BOLT - 4) ∧
    ((Lightning.generateSegments stubEnv 0 0 1 1 ⟨0, 0, 0, 0, 0, 0, 1⟩ 0 1 1
        [] 0).1.length ≤ Lightning.MAX_SEGS_PER_BOLT - 4 ∧
      ∃ l, (Lightning.generateSegments stubEnv 0 0 1 1 ⟨0, 0, 0, 0, 0, 0, 1⟩ 0 1 1
        [] 0).1 = [] ++ l) :=
  ⟨by simp,
   c4_generator_cap.1 stubEnv 0 0 1 1 ⟨0, 0, 0, 0, 0, 0, 1⟩ 0 1 1 [] 0 (by simp)⟩

/-- Dummy segment used by the C4 counterexample. -/
def seg0 : Lightning.Seg :=
  ⟨0, 0, 0, 0, 0, 0⟩

/-- A segment list already at the per-bolt cap. -/
def fullSegs : List Lightning.Seg :=
  List.replicate 508 seg0

set_option maxRecDepth 4000 in
/-- C4 counterexample.  At the cap, `generateSegments` returns its input
unchanged: the would-be new segment (here the depth-0 segment
(0,0)–(1,1) of width 2) is simply not emitted, and in particular the
oldest segment is NOT dropped to make room for it, contradicting the
claim's "oldest segments dropped if the cap would be exceeded". -/
theorem c4_cap_counterexample :
    Lightning.generateSegments stubEnv 0 0 1 1 ⟨0, 0, 0, 0, 0, 0, 1⟩ 0 2 3 fullSegs 0
        = (fullSegs, 0) ∧
    (Lightning.generateSegments stubEnv 0 0 1 1 ⟨0, 0, 0, 0, 0, 0, 1⟩ 0 2 3
        fullSegs 0).1 ≠ fullSegs.drop 1 ++ [⟨0, 0, 1, 1, 2, 3⟩] := by
  have hcap : Lightning.MAX_SEGS_PER_BOLT - 4 ≤ fullSegs.length := by
    simp only [fullSegs, List.length_replicate, Lightning.MAX_SEGS_PER_BOLT]
    omega
  have h : Lightning.generateSegments stubEnv 0 0 1 1 ⟨0, 0, 0, 0, 0, 0, 1⟩ 0 2 3
      fullSegs 0 = (fullSegs, 0) := by
    rw [Lightning.generateSegments, if_pos hcap]
  refine ⟨h, ?_⟩
  rw [h]
  intro hEq
  have h507 := congrArg (fun l => l.getD 507 seg0) hEq
  simp only at h507
  rw [List.getD_eq_getElem _ _ (by simp only [fullSegs, List.length_replicate]; omega),
    List.getD_append_right _ _ _ _
      (by simp only [fullSegs, List.length_drop, List.length_replicate]; omega)] at h507
  simp only [fullSegs, List.getElem_replicate, List.length_drop,
    List.length_replicate] at h507
  have hidx : 507 - (508 - 1) = 0 := by omega
  rw [hidx, List.getD_cons_zero] at h507
  exact absurd h507 (by simp only [seg0, ne_eq, Lightning.Seg.mk.injEq]; norm_num)

/-! ## C6: EMA rates and onset-strength formulas -/

/-- Summing an indexed range of defaulted accesses equals summing the
corresponding sublist. -/
theorem range'_getD_map_sum {α β : Type} [AddCommMonoid β] (f : α → β) (d : α)
    (data : List α) :
    ∀ (n lo : ℕ), lo + n ≤ data.length →
      ((List.range' lo n).map (fun i => f (data.getD i d))).sum
        = (((data.drop lo).take n).map f).sum := by
  intro n
  induction n with
  | zero => simp
  | succ n ih =>
      intro lo h
      have hlo : lo < data.length := by omega
      rw [List.range'_succ, List.map_cons, List.sum_cons, ih (lo + 1) (by omega)]
      rw [List.drop_eq_getElem_cons hlo]
      rw [List.take_succ_cons, List.map_cons, List.sum_cons,
        List.getD_eq_getElem _ _ hlo]

/-- Dividing each summand by a constant divides the sum. -/
theorem sum_map_div {α : Type} (l : List α) (f : α → ℚ) (c : ℚ) :
    (l.map (fun x => f x / c)).sum = (l.map f).sum / c := by
  induction l with
  | nil => simp
  | cons x xs ih => simp [ih, add_div]

/-- The source's per-band loop sum equals the spec's band average times its
guarded range length. -/
theorem bandSum_eq_spec (data : List ℕ) (lo hi : ℕ) (h : hi ≤ data.length)
    (hlo : lo ≤ hi) :
    Lightning.bandSum data lo hi / max 1 ((hi : ℚ) - (lo : ℚ))
      = specBandAvg data lo hi := by
  unfold Lightning.bandSum specBandAvg
  rw [show (fun i => ((data.getD i 0 : ℕ) : ℚ) / 255)
      = (fun i => ((fun v : ℕ => (v : ℚ)) (data.getD i 0)) / 255) from rfl]
  rw [sum_map_div (List.range' lo (hi - lo)) (fun i => ((data.getD i 0 : ℕ) : ℚ)) 255]
  rw [range'_getD_map_sum (fun v : ℕ => (v : ℚ)) 0 data (hi - lo) lo (by omega)]
  rw [div_div, div_div, mul_comm]

/-- `jsFloorN (len * q) ≤ len` for `0 ≤ q ≤ 1`. -/
theorem jsFloorN_mul_le (len : ℕ) (q : ℚ) (h1 : q ≤ 1) :
    jsFloorN ((len : ℚ) * q) ≤ len := by
  unfold jsFloorN
  have hle : (len : ℚ) * q ≤ (len : ℚ) := by nlinarith [Nat.cast_nonneg (α := ℚ) len]
  have h2 : ⌊(len : ℚ) * q⌋ ≤ ⌊(len : ℚ)⌋ := Int.floor_le_floor hle
  rw [Int.floor_natCast] at h2
  omega

/-- `jsFloorN (len * ·)` is monotone. -/
theorem jsFloorN_mul_mono (len : ℕ) (q1 q2 : ℚ) (h : q1 ≤ q2) :
    jsFloorN ((len : ℚ) * q1) ≤ jsFloorN ((len : ℚ) * q2) := by
  unfold jsFloorN
  have hle : (len : ℚ) * q1 ≤ (len : ℚ) * q2 :=
    mul_le_mul_of_nonneg_left h (Nat.cast_nonneg len)
  have h2 := Int.floor_le_floor hle
  omega

/-- C6.  Every onset detector updates its fast and slow EMAs at the
frame-rate-normalised effective rate `min(1, rate · dt · 60)` and computes
onset strength as `max(0, fast − slow)` plus `k` times the non-negative
frame-to-frame rise (`k = 0.7` in the lightning three-band detector,
`0.75` in the particle engine's kick detector), for every frame with a
non-empty snapshot; the band inputs are the spec's range averages. -/
theorem c6_ema_onset_formulas (E : JSEnv) (s : Lightning.LState)
    (inp : Lightning.LInput) (h : inp.freq ≠ []) :
    (Lightning.lightningAnalysis s.det inp.freq inp.dt).sb
        = specBandAvg inp.freq 0 (jsFloorN ((inp.freq.length : ℚ) * (8/100))) ∧
    (Lightning.lightningAnalysis s.det inp.freq inp.dt).mid
        = specBandAvg inp.freq (jsFloorN ((inp.freq.length : ℚ) * (8/100)))
            (jsFloorN ((inp.freq.length : ℚ) * (55/100))) ∧
    (Lightning.lightningAnalysis s.det inp.freq inp.dt).hi
        = specBandAvg inp.freq (jsFloorN ((inp.freq.length : ℚ) * (55/100)))
            inp.freq.length ∧
    ((Lightning.lightningUpdate E s inp).1.det.sbFast
        = specEma s.det.sbFast (Lightning.lightningAnalysis s.det inp.freq inp.dt).sb
            (specRate (55/100) inp.dt) ∧
      (Lightning.lightningUpdate E s inp).1.det.sbSlow
        = specEma s.det.sbSlow (Lightning.lightningAnalysis s.det inp.freq inp.dt).sb
            (specRate (4/100) inp.dt) ∧
      (Lightning.lightningUpdate E s inp).1.det.midFast
        = specEma s.det.midFast (Lightning.lightningAnalysis s.det inp.freq inp.dt).mid
            (specRate (55/100) inp.dt) ∧
      (Lightning.lightningUpdate E s inp).1.det.midSlow
        = specEma s.det.midSlow (Lightning.lightningAnalysis s.det inp.freq inp.dt).mid
            (specRate (4/100) inp.dt) ∧
      (Lightning.lightningUpdate E s inp).1.det.hiFast
        = specEma s.det.hiFast (Lightning.lightningAnalysis s.det inp.freq inp.dt).hi
            (specRate (55/100) inp.dt) ∧
      (Lightning.lightningUpdate E s inp).1.det.hiSlow
        = specEma s.det.hiSlow (Lightning.lightningAnalysis s.det inp.freq inp.dt).hi
            (specRate (4/100) inp.dt)) ∧
    ((Lightning.lightningAnalysis s.det inp.freq inp.dt).sbOnset
        = specOnset (Lightning.lightningAnalysis s.det inp.freq inp.dt).sbFast
            (Lightning.lightningAnalysis s.det inp.freq inp.dt).sbSlow
            (Lightning.lightningAnalysis s.det inp.freq inp.dt).sb s.det.prevSb (7/10) ∧
      (Lightning.lightningAnalysis s.det inp.freq inp.dt).midOnset
        = specOnset (Lightning.lightningAnalysis s.det inp.freq inp.dt).midFast
            (Lightning.lightningAnalysis s.det inp.freq inp.dt).midSlow
            (Lightning.lightningAnalysis s.det inp.freq inp.dt).mid s.det.prevMid (7/10) ∧
      (Lightning.lightningAnalysis s.det inp.freq inp.dt).hiOnset
        = specOnset (Lightning.lightningAnalysis s.det inp.freq inp.dt).hiFast
            (Lightning.lightningAnalysis s.det inp.freq inp.dt).hiSlow
            (Lightning.lightningAnalysis s.det inp.freq inp.dt).hi s.det.prevHi (7/10)) ∧
    (∀ (es : Effects.EState) (p : Effects.EParams) (dt : ℚ),
      (Effects.effectsUpdate E es p dt).1.bassEmaFast
          = specEma es.bassEmaFast (Effects.getBandLevels p.freq).low
              (specRate (if es.bassEmaFast < (Effects.getBandLevels p.freq).low
                then 55/100 else 9/100) dt) ∧
        (Effects.effectsUpdate E es p dt).1.bassEmaSlow
          = specEma es.bassEmaSlow (Effects.getBandLevels p.freq).low
              (specRate (35/1000) dt)) ∧
    (∀ (fast slow cur prev : ℚ),
      Effects.effectsOnset fast slow cur prev = specOnset fast slow cur prev (75/100)) := by
  have hne : ¬(inp.freq.length = 0) := by
    simpa [List.length_eq_zero] using h
  have hlen8 : jsFloorN ((inp.freq.length : ℚ) * (8/100)) ≤
      jsFloorN ((inp.freq.length : ℚ) * (55/100)) :=
    jsFloorN_mul_mono _ _ _ (by norm_num)
  have hlen55 : jsFloorN ((inp.freq.length : ℚ) * (55/100)) ≤ inp.freq.length :=
    jsFloorN_mul_le _ _ (by norm_num)
  have hsb : (Lightning.lightningAnalysis s.det inp.freq inp.dt).sb
      = specBandAvg inp.freq 0 (jsFloorN ((inp.freq.length : ℚ) * (8/100))) := by
    show Lightning.bandSum inp.freq 0 _ / max 1 _ = _
    rw [← bandSum_eq_spec inp.freq 0 _ (le_trans hlen8 hlen55) (Nat.zero_le _)]
    norm_num
  have hmid : (Lightning.lightningAnalysis s.det inp.freq inp.dt).mid
      = specBandAvg inp.freq (jsFloorN ((inp.freq.length : ℚ) * (8/100)))
          (jsFloorN ((inp.freq.length : ℚ) * (55/100))) := by
    show Lightning.bandSum inp.freq _ _ / max 1 _ = _
    rw [← bandSum_eq_spec inp.freq _ _ hlen55 hlen8]
  have hhi : (Lightning.lightningAnalysis s.det inp.freq inp.dt).hi
      = specBandAvg inp.freq (jsFloorN ((inp.freq.length : ℚ) * (55/100)))
          inp.freq.length := by
    show Lightning.bandSum inp.freq _ _ / max 1 _ = _
    rw [← bandSum_eq_spec inp.freq _ _ (le_refl _) hlen55]
  have hupd : (Lightning.lightningUpdate E s inp).1.det
      = { sbFast := (Lightning.lightningAnalysis s.det inp.freq inp.dt).sbFast
          sbSlow := (Lightning.lightningAnalysis s.det inp.freq inp.dt).sbSlow
          prevSb := (Lightning.lightningAnalysis s.det inp.freq inp.dt).sb
          midFast := (Lightning.lightningAnalysis s.det inp.freq inp.dt).midFast
          midSlow := (Lightning.lightningAnalysis s.det inp.freq inp.dt).midSlow
          prevMid := (Lightning.lightningAnalysis s.det inp.freq inp.dt).mid
          hiFast := (Lightning.lightningAnalysis s.det inp.freq inp.dt).hiFast
          hiSlow := (Lightning.lightningAnalysis s.det inp.freq inp.dt).hiSlow
          prevHi := (Lightning.lightningAnalysis s.det inp.freq inp.dt).hi
          impactCD := (Lightning.lightningUpdate E s inp).1.det.impactCD
          beatCD := (Lightning.lightningUpdate E s inp).1.det.beatCD
          beatClock := (Lightning.lightningUpdate E s inp).1.det.beatClock
          beatSnapCD := (Lightning.lightningUpdate E s inp).1.det.beatSnapCD
          bigHitCD := (Lightning.lightningUpdate E s inp).1.det.bigHitCD
          k := (Lightning.lightningUpdate E s inp).1.det.k } := by
    unfold Lightning.lightningUpdate
    rw [if_neg hne]
  refine ⟨hsb, hmid, hhi, ⟨?_, ?_, ?_, ?_, ?_, ?_⟩, ⟨?_, ?_, ?_⟩, ?_, ?_⟩
  · rw [hupd]; rfl
  · rw [hupd]; rfl
  · rw [hupd]; rfl
  · rw [hupd]; rfl
  · rw [hupd]; rfl
  · rw [hupd]; rfl
  · have e1 : (Lightning.lightningAnalysis s.det inp.freq inp.dt).sbOnset
        = max 0 ((Lightning.lightningAnalysis s.det inp.freq inp.dt).sbFast
            - (Lightning.lightningAnalysis s.det inp.freq inp.dt).sbSlow)
          + max 0 ((Lightning.lightningAnalysis s.det inp.freq inp.dt).sb
            - s.det.prevSb) * (7/10) := rfl
    rw [e1]
    unfold specOnset
    ring
  · have e1 : (Lightning.lightningAnalysis s.det inp.freq inp.dt).midOnset
        = max 0 ((Lightning.lightningAnalysis s.det inp.freq inp.dt).midFast
            - (Lightning.lightningAnalysis s.det inp.freq inp.dt).midSlow)
          + max 0 ((Lightning.lightningAnalysis s.det inp.freq inp.dt).mid
            - s.det.prevMid) * (7/10) := rfl
    rw [e1]
    unfold specOnset
    ring
  · have e1 : (Lightning.lightningAnalysis s.det inp.freq inp.dt).hiOnset
        = max 0 ((Lightning.lightningAnalysis s.det inp.freq inp.dt).hiFast
            - (Lightning.lightningAnalysis s.det inp.freq inp.dt).hiSlow)
          + max 0 ((Lightning.lightningAnalysis s.det inp.freq inp.dt).hi
            - s.det.prevHi) * (7/10) := rfl
    rw [e1]
    unfold specOnset
    ring
  · intro es p dt
    exact ⟨rfl, rfl⟩
  · intro fast slow cur prev
    unfold Effects.effectsOnset specOnset
    ring

/-! ## C8: detector determinism -/

namespace Lightning

/-- The stream position consumed by `makeBolt` does not depend on the hue
argument. -/
theorem makeBolt_k_canon (E : JSEnv) (x1 y1 x2 y2 hue e bpm : ℚ)
    (ma : Option ℚ) (k : ℕ) :
    (makeBolt E ⟨x1, y1, x2, y2, hue, e, bpm, ma⟩ k).2
      = (makeBolt E ⟨x1, y1, x2, y2, 0, e, bpm, ma⟩ k).2 := by
  unfold makeBolt
  cases ma <;> rfl

/-- The stream position consumed by `spawnBolt` does not depend on the hue
argument or the pool contents. -/
theorem spawnBolt_k_canon (E : JSEnv) (x1 y1 x2 y2 hue e bpm : ℚ)
    (ma : Option ℚ) (pool : List Bolt) (k : ℕ) :
    (spawnBolt E x1 y1 x2 y2 hue e bpm ma pool k).2
      = (spawnBolt E x1 y1 x2 y2 0 e bpm ma [] k).2 := by
  unfold spawnBolt
  dsimp only
  exact makeBolt_k_canon E x1 y1 x2 y2 hue e bpm ma k

/-- The stream position consumed by `spawnEdgeBolt` does not depend on the
hue argument or the pool contents. -/
theorem spawnEdgeBolt_k_canon (E : JSEnv) (hue e bpm : ℚ) (pool : List Bolt)
    (k : ℕ) :
    (spawnEdgeBolt E hue e bpm pool k).2 = (spawnEdgeBolt E 0 e bpm [] k).2 := by
  unfold spawnEdgeBolt
  dsimp only
  exact spawnBolt_k_canon E _ _ _ _ hue e bpm none pool _

/-- The non-pool outputs of `beatBlock` do not depend on the pool or hue. -/
theorem beatBlock_obs (E : JSEnv) (p : List Bolt) (k : ℕ)
    (bc spb hue e bpm : ℚ) :
    (beatBlock E p k bc spb hue e bpm).2
      = (beatBlock E [] k bc spb 0 e bpm).2 := by
  unfold beatBlock
  by_cases hc : spb ≤ bc
  · rw [if_pos hc, if_pos hc]
    dsimp only
    simp only [spawnEdgeBolt_k_canon]
  · rw [if_neg hc, if_neg hc]

/-- The non-pool outputs of `snapBlock` do not depend on the pool or hue. -/
theorem snapBlock_obs (E : JSEnv) (p : List Bolt) (k : ℕ)
    (onset onsetThresh beatPhase beatSnapCD impactCD spb hue e bpm : ℚ) :
    (snapBlock E p k onset onsetThresh beatPhase beatSnapCD impactCD spb
        hue e bpm).2
      = (snapBlock E [] k onset onsetThresh beatPhase beatSnapCD impactCD spb
        0 e bpm).2 := by
  unfold snapBlock
  by_cases hc : onsetThresh < onset ∧ (80/100 < beatPhase ∨ beatPhase < 15/100) ∧
      beatSnapCD ≤ 0 ∧ impactCD ≤ 0
  · rw [if_pos hc, if_pos hc]
    dsimp only
    simp only [spawnEdgeBolt_k_canon]
  · rw [if_neg hc, if_neg hc]

/-- The non-pool outputs of `onsetBlock` do not depend on the pool or hue. -/
theorem onsetBlock_obs (E : JSEnv) (p : List Bolt) (k : ℕ)
    (onset onsetThresh impactCD hue e bpm : ℚ) :
    (onsetBlock E p k onset onsetThresh impactCD hue e bpm).2
      = (onsetBlock E [] k onset onsetThresh impactCD 0 e bpm).2 := by
  unfold onsetBlock
  by_cases hc : onsetThresh < onset ∧ impactCD ≤ 0
  · rw [if_pos hc, if_pos hc]
    dsimp only
    simp only [spawnEdgeBolt_k_canon]
  · rw [if_neg hc, if_neg hc]

/-- The non-pool outputs of `multiBlock` do not depend on the pool or hue. -/
theorem multiBlock_obs (E : JSEnv) (p : List Bolt) (k : ℕ)
    (sbO midO hiO onset bigHitCD beatCD hue e bpm : ℚ) :
    (multiBlock E p k sbO midO hiO onset bigHitCD beatCD hue e bpm).2
      = (multiBlock E [] k sbO midO hiO onset bigHitCD beatCD 0 e bpm).2 := by
  unfold multiBlock
  by_cases hc1 : (38/1000 < sbO ∧ 30/1000 < midO ∧ 25/1000 < hiO) ∧
      10/100 < sbO + midO + hiO ∧ bigHitCD ≤ 0
  · rw [if_pos hc1, if_pos hc1]
    dsimp only
    by_cases hc2 : 20/100 < sbO + midO + hiO
    · rw [if_pos hc2, if_pos hc2]
      dsimp only
      simp only [spawnBolt_k_canon, spawnEdgeBolt_k_canon]
    · rw [if_neg hc2, if_neg hc2]
      dsimp only
      simp only [spawnBolt_k_canon]
  · rw [if_neg hc1, if_neg hc1]
    by_cases hc3 : 28/100 < onset ∧ beatCD ≤ 0
    · rw [if_pos hc3, if_pos hc3]
      dsimp only
      simp only [spawnBolt_k_canon]
    · rw [if_neg hc3, if_neg hc3]

/-- One frame: the events and the detector half of the state do not depend
on the stored bolts or on the hue input. -/
theorem lightningUpdate_obs (E : JSEnv) (d : LDet) (b1 b2 : List Bolt)
    (freq : List ℕ) (energy bpm hA hB dt : ℚ) :
    ((lightningUpdate E ⟨b1, d⟩ ⟨freq, energy, bpm, hA, dt⟩).2
        = (lightningUpdate E ⟨b2, d⟩ ⟨freq, energy, bpm, hB, dt⟩).2) ∧
    ((lightningUpdate E ⟨b1, d⟩ ⟨freq, energy, bpm, hA, dt⟩).1.det
        = (lightningUpdate E ⟨b2, d⟩ ⟨freq, energy, bpm, hB, dt⟩).1.det) := by
  by_cases hl : freq.length = 0
  · unfold lightningUpdate
    dsimp only
    rw [if_pos hl, if_pos hl]
    exact ⟨rfl, rfl⟩
  · unfold lightningUpdate
    dsimp only
    rw [if_neg hl, if_neg hl]
    constructor <;>
      simp only [beatBlock_obs, snapBlock_obs, onsetBlock_obs, multiBlock_obs]

end Lightning

/-- Build per-frame lightning inputs out of a shared base sequence
(frequency snapshot, energy, bpm, dt per frame) and a hue stream; frame
`n + i` takes hue `hs (n + i)`. -/
def mkLInputs : List (List ℕ × ℚ × ℚ × ℚ) → (ℕ → ℚ) → ℕ →
    List Lightning.LInput
  | [], _, _ => []
  | b :: rest, hs, n =>
      ⟨b.1, b.2.1, b.2.2.1, hs n, b.2.2.2⟩ :: mkLInputs rest hs (n + 1)

/-- C8. Determinism / noninterference of the lightning beat-and-onset
detector: two instances driven by the same random stream and fed identical
frequency snapshots, energies, bpm values and time steps produce identical
fire/no-fire event sequences, even if their bolt pools and hue inputs
differ — the events depend only on the detector state machine and its
inputs (`spec.md`: "stateful but deterministic given inputs and time
steps", under a fixed random-seed-free comparison). -/
theorem c8_detector_determinism (E : JSEnv)
    (base : List (List ℕ × ℚ × ℚ × ℚ)) (h1 h2 : ℕ → ℚ) :
    ∀ (n : ℕ) (d : Lightning.LDet) (b1 b2 : List Lightning.Bolt),
      Lightning.lightningRun E ⟨b1, d⟩ (mkLInputs base h1 n)
        = Lightning.lightningRun E ⟨b2, d⟩ (mkLInputs base h2 n) := by
  induction base with
  | nil => intro n d b1 b2; rfl
  | cons hd rest ih =>
      intro n d b1 b2
      simp only [mkLInputs, Lightning.lightningRun]
      have hx := Lightning.lightningUpdate_obs E d b1 b2 hd.1 hd.2.1 hd.2.2.1
        (h1 n) (h2 n) hd.2.2.2
      refine congrArg₂ List.cons hx.1 ?_
      conv_rhs =>
        rw [show (Lightning.lightningUpdate E ⟨b2, d⟩
              ⟨hd.1, hd.2.1, hd.2.2.1, h2 n, hd.2.2.2⟩).1
            = ⟨(Lightning.lightningUpdate E ⟨b2, d⟩
                  ⟨hd.1, hd.2.1, hd.2.2.1, h2 n, hd.2.2.2⟩).1.bolts,
               (Lightning.lightningUpdate E ⟨b2, d⟩
                  ⟨hd.1, hd.2.1, hd.2.2.1, h2 n, hd.2.2.2⟩).1.det⟩ from rfl,
          ← hx.2]
      exact ih (n + 1)
        (Lightning.lightningUpdate E ⟨b1, d⟩ ⟨hd.1, hd.2.1, hd.2.2.1, h1 n, hd.2.2.2⟩).1.det
        (Lightning.lightningUpdate E ⟨b1, d⟩ ⟨hd.1, hd.2.1, hd.2.2.1, h1 n, hd.2.2.2⟩).1.bolts
        (Lightning.lightningUpdate E ⟨b2, d⟩ ⟨hd.1, hd.2.1, hd.2.2.1, h2 n, hd.2.2.2⟩).1.bolts

/-- A zeroed lightning detector state, for closed witness instances. -/
def zeroLDet : Lightning.LDet :=
  ⟨0, 0, 0, 0, 0, 0, 0, 0, 0, 0, 0, 0, 0, 0, 0⟩

/-- Witness for C6 at a concrete two-bin snapshot. -/
theorem c6_ema_onset_formulas_witness :
    (([100, 200] : List ℕ) ≠ []) ∧
    (Lightning.lightningAnalysis zeroLDet [100, 200] (1/60)).sb
      = specBandAvg [100, 200] 0 (jsFloorN (((2 : ℕ) : ℚ) * (8/100))) :=
  ⟨by simp,
   (c6_ema_onset_formulas stubEnv ⟨[], zeroLDet⟩ ⟨[100, 200], 1/2, 120, 0, 1/60⟩
      (by simp)).1⟩


/-! ## C9: GPU packing — draw range equals the live unit count -/

namespace Lightning

/-- `writeList` leaves every index outside `[off, off + length)` unchanged. -/
theorem writeList_frame (vs : List ℚ) : ∀ (buf : ℕ → ℚ) (off j : ℕ),
    (j < off ∨ off + vs.length ≤ j) → writeList buf off vs j = buf j := by
  induction vs with
  | nil => intro buf off j h; rfl
  | cons v rest ih =>
      intro buf off j h
      show writeList (Function.update buf off v) (off + 1) rest j = buf j
      rw [ih _ (off + 1) j
        (by simp only [List.length_cons] at h; omega)]
      have hne : j ≠ off := by
        simp only [List.length_cons] at h
        omega
      rw [Function.update_apply, if_neg hne]

/-- `writeList` stores the `a`-th value at index `off + a`. -/
theorem writeList_read (vs : List ℚ) : ∀ (buf : ℕ → ℚ) (off a : ℕ)
    (h : a < vs.length), writeList buf off vs (off + a) = vs.get ⟨a, h⟩ := by
  induction vs with
  | nil => intro buf off a h; exact absurd h (by simp)
  | cons v rest ih =>
      intro buf off a h
      match a with
      | 0 =>
          show writeList (Function.update buf off v) (off + 1) rest (off + 0) = v
          rw [writeList_frame rest (Function.update buf off v) (off + 1) (off + 0)
            (Or.inl (by omega))]
          rw [Nat.add_zero, Function.update_apply, if_pos rfl]
      | a + 1 =>
          show writeList (Function.update buf off v) (off + 1) rest (off + (a + 1))
            = rest.get ⟨a, _⟩
          rw [show off + (a + 1) = (off + 1) + a from by omega,
            ih _ (off + 1) a (by simpa using h)]

/-- `writeSeg`, unfolded to its four vertex writes. -/
theorem writeSeg_eq (buf : ℕ → ℚ) (c : ℕ) (seg : Seg) (life hue : ℚ) :
    writeSeg buf c seg life hue
      = writeList (writeList (writeList (writeList buf
          (c * VERTS_PER_SEG * FLOATS_PER_VERT + 0 * FLOATS_PER_VERT)
          (segFloats seg life hue (-1) 0))
          (c * VERTS_PER_SEG * FLOATS_PER_VERT + 1 * FLOATS_PER_VERT)
          (segFloats seg life hue 1 0))
          (c * VERTS_PER_SEG * FLOATS_PER_VERT + 2 * FLOATS_PER_VERT)
          (segFloats seg life hue 1 1))
          (c * VERTS_PER_SEG * FLOATS_PER_VERT + 3 * FLOATS_PER_VERT)
          (segFloats seg life hue (-1) 1) := rfl

/-- `writeSeg` leaves every index outside its 40-float slot unchanged. -/
theorem writeSeg_frame (buf : ℕ → ℚ) (c : ℕ) (seg : Seg) (life hue : ℚ)
    (j : ℕ) (h : j < c * 40 ∨ c * 40 + 40 ≤ j) :
    writeSeg buf c seg life hue j = buf j := by
  rw [writeSeg_eq]
  rw [writeList_frame _ _ _ _ (by
    simp only [segFloats, List.length_cons, List.length_nil,
      VERTS_PER_SEG, FLOATS_PER_VERT]; omega)]
  rw [writeList_frame _ _ _ _ (by
    simp only [segFloats, List.length_cons, List.length_nil,
      VERTS_PER_SEG, FLOATS_PER_VERT]; omega)]
  rw [writeList_frame _ _ _ _ (by
    simp only [segFloats, List.length_cons, List.length_nil,
      VERTS_PER_SEG, FLOATS_PER_VERT]; omega)]
  rw [writeList_frame _ _ _ _ (by
    simp only [segFloats, List.length_cons, List.length_nil,
      VERTS_PER_SEG, FLOATS_PER_VERT]; omega)]

/-- `writeSeg` stores the packed vertex attributes of its segment: float `a`
of vertex `vi` of slot `c` holds the `a`-th attribute of `segFloats` at that
vertex's corner. -/
theorem writeSeg_read (buf : ℕ → ℚ) (c : ℕ) (seg : Seg) (life hue : ℚ)
    (vi a : ℕ) (hvi : vi < 4) (ha : a < 10) :
    writeSeg buf c seg life hue (c * 40 + vi * 10 + a)
      = (segFloats seg life hue (quadSides.getD vi (0, 0)).1
          (quadSides.getD vi (0, 0)).2).getD a 0 := by
  rw [writeSeg_eq]
  have hlen : ∀ s t : ℚ, (segFloats seg life hue s t).length = 10 := by
    intro s t; rfl
  have hgetD : ∀ (s t : ℚ) (h : a < (segFloats seg life hue s t).length),
      (segFloats seg life hue s t).get ⟨a, h⟩
        = (segFloats seg life hue s t).getD a 0 := by
    intro s t h
    rw [List.getD_eq_get (segFloats seg life hue s t) 0 h]
  interval_cases vi
  · rw [writeList_frame (segFloats seg life hue (-1) 1) _
        (c * VERTS_PER_SEG * FLOATS_PER_VERT + 3 * FLOATS_PER_VERT)
        (c * 40 + 0 * 10 + a)
        (Or.inl (by simp only [VERTS_PER_SEG, FLOATS_PER_VERT]; omega)),
      writeList_frame (segFloats seg life hue 1 1) _
        (c * VERTS_PER_SEG * FLOATS_PER_VERT + 2 * FLOATS_PER_VERT)
        (c * 40 + 0 * 10 + a)
        (Or.inl (by simp only [VERTS_PER_SEG, FLOATS_PER_VERT]; omega)),
      writeList_frame (segFloats seg life hue 1 0) _
        (c * VERTS_PER_SEG * FLOATS_PER_VERT + 1 * FLOATS_PER_VERT)
        (c * 40 + 0 * 10 + a)
        (Or.inl (by simp only [VERTS_PER_SEG, FLOATS_PER_VERT]; omega)),
      show c * 40 + 0 * 10 + a
          = (c * VERTS_PER_SEG * FLOATS_PER_VERT + 0 * FLOATS_PER_VERT) + a
        from by simp only [VERTS_PER_SEG, FLOATS_PER_VERT]; omega,
      writeList_read (segFloats seg life hue (-1) 0) buf
        (c * VERTS_PER_SEG * FLOATS_PER_VERT + 0 * FLOATS_PER_VERT) a
        (by rw [hlen]; omega)]
    exact hgetD (-1) 0 _
  · rw [writeList_frame (segFloats seg life hue (-1) 1) _
        (c * VERTS_PER_SEG * FLOATS_PER_VERT + 3 * FLOATS_PER_VERT)
        (c * 40 + 1 * 10 + a)
        (Or.inl (by simp only [VERTS_PER_SEG, FLOATS_PER_VERT]; omega)),
      writeList_frame (segFloats seg life hue 1 1) _
        (c * VERTS_PER_SEG * FLOATS_PER_VERT + 2 * FLOATS_PER_VERT)
        (c * 40 + 1 * 10 + a)
        (Or.inl (by simp only [VERTS_PER_SEG, FLOATS_PER_VERT]; omega)),
      show c * 40 + 1 * 10 + a
          = (c * VERTS_PER_SEG * FLOATS_PER_VERT + 1 * FLOATS_PER_VERT) + a
        from by simp only [VERTS_PER_SEG, FLOATS_PER_VERT]; omega,
      writeList_read (segFloats seg life hue 1 0) _
        (c * VERTS_PER_SEG * FLOATS_PER_VERT + 1 * FLOATS_PER_VERT) a
        (by rw [hlen]; omega)]
    exact hgetD 1 0 _
  · rw [writeList_frame (segFloats seg life hue (-1) 1) _
        (c * VERTS_PER_SEG * FLOATS_PER_VERT + 3 * FLOATS_PER_VERT)
        (c * 40 + 2 * 10 + a)
        (Or.inl (by simp only [VERTS_PER_SEG, FLOATS_PER_VERT]; omega)),
      show c * 40 + 2 * 10 + a
          = (c * VERTS_PER_SEG * FLOATS_PER_VERT + 2 * FLOATS_PER_VERT) + a
        from by simp only [VERTS_PER_SEG, FLOATS_PER_VERT]; omega,
      writeList_read (segFloats seg life hue 1 1) _
        (c * VERTS_PER_SEG * FLOATS_PER_VERT + 2 * FLOATS_PER_VERT) a
        (by rw [hlen]; omega)]
    exact hgetD 1 1 _
  · rw [show c * 40 + 3 * 10 + a
          = (c * VERTS_PER_SEG * FLOATS_PER_VERT + 3 * FLOATS_PER_VERT) + a
        from by simp only [VERTS_PER_SEG, FLOATS_PER_VERT]; omega,
      writeList_read (segFloats seg life hue (-1) 1) _
        (c * VERTS_PER_SEG * FLOATS_PER_VERT + 3 * FLOATS_PER_VERT) a
        (by rw [hlen]; omega)]
    exact hgetD (-1) 1 _

/-- The per-bolt inner loop of `uploadToGPU`: the segment counter ends at
`min MAX_SEGS (start + segs)` — it packs every segment until the buffer
capacity is reached, then stops. -/
theorem uploadInner_count (life hue : ℚ) (segs : List Seg) :
    ∀ acc : (ℕ → ℚ) × ℕ, acc.2 ≤ MAX_SEGS →
      (segs.foldl (fun acc2 seg => if MAX_SEGS ≤ acc2.2 then acc2
          else (writeSeg acc2.1 acc2.2 seg life hue, acc2.2 + 1)) acc).2
        = min MAX_SEGS (acc.2 + segs.length) := by
  induction segs with
  | nil =>
      intro acc h
      simp only [List.foldl_nil, List.length_nil, Nat.add_zero]
      omega
  | cons s rest ih =>
      intro acc h
      simp only [List.foldl_cons, List.length_cons]
      by_cases hs : MAX_SEGS ≤ acc.2
      · rw [if_pos hs, ih acc h]
        omega
      · rw [if_neg hs,
          ih (writeSeg acc.1 acc.2 s life hue, acc.2 + 1) (by dsimp only; omega)]
        dsimp only
        omega

/-- The inner loop never decreases the segment counter. -/
theorem uploadInner_mono (life hue : ℚ) (segs : List Seg) :
    ∀ acc : (ℕ → ℚ) × ℕ,
      acc.2 ≤ (segs.foldl (fun acc2 seg => if MAX_SEGS ≤ acc2.2 then acc2
          else (writeSeg acc2.1 acc2.2 seg life hue, acc2.2 + 1)) acc).2 := by
  induction segs with
  | nil => intro acc; exact Nat.le_refl _
  | cons s rest ih =>
      intro acc
      simp only [List.foldl_cons]
      by_cases hs : MAX_SEGS ≤ acc.2
      · rw [if_pos hs]; exact ih acc
      · rw [if_neg hs]
        exact le_trans (Nat.le_succ _)
          (ih (writeSeg acc.1 acc.2 s life hue, acc.2 + 1))

/-- The inner loop writes only into slots `[start, final)`: every buffer
index at or beyond `40 * final`, and every index below `40 * start`, is
left unchanged. -/
theorem uploadInner_frame (life hue : ℚ) (segs : List Seg) :
    ∀ (acc : (ℕ → ℚ) × ℕ) (j : ℕ),
      ((segs.foldl (fun acc2 seg => if MAX_SEGS ≤ acc2.2 then acc2
          else (writeSeg acc2.1 acc2.2 seg life hue, acc2.2 + 1)) acc).2 * 40 ≤ j
        ∨ j < acc.2 * 40) →
      (segs.foldl (fun acc2 seg => if MAX_SEGS ≤ acc2.2 then acc2
          else (writeSeg acc2.1 acc2.2 seg life hue, acc2.2 + 1)) acc).1 j
        = acc.1 j := by
  induction segs with
  | nil => intro acc j h; rfl
  | cons s rest ih =>
      intro acc j h
      simp only [List.foldl_cons] at h ⊢
      by_cases hs : MAX_SEGS ≤ acc.2
      · rw [if_pos hs] at h ⊢
        exact ih acc j h
      · rw [if_neg hs] at h ⊢
        have hmono := uploadInner_mono life hue rest
          (writeSeg acc.1 acc.2 s life hue, acc.2 + 1)
        dsimp only at hmono
        rw [ih (writeSeg acc.1 acc.2 s life hue, acc.2 + 1) j
          (by dsimp only; omega)]
        dsimp only
        exact writeSeg_frame acc.1 acc.2 s life hue j (by omega)

/-- The whole packer: the final segment counter is
`min MAX_SEGS (start + total segments)`. -/
theorem uploadOuter_count (bolts : List Bolt) :
    ∀ acc : (ℕ → ℚ) × ℕ, acc.2 ≤ MAX_SEGS →
      (bolts.foldl (fun acc bolt =>
          bolt.segs.foldl (fun acc2 seg => if MAX_SEGS ≤ acc2.2 then acc2
            else (writeSeg acc2.1 acc2.2 seg (bolt.age / bolt.maxAge) bolt.hue,
              acc2.2 + 1)) acc) acc).2
        = min MAX_SEGS (acc.2 + (bolts.map (fun b => b.segs.length)).sum) := by
  induction bolts with
  | nil =>
      intro acc h
      simp only [List.foldl_nil, List.map_nil, List.sum_nil, Nat.add_zero]
      omega
  | cons b rest ih =>
      intro acc h
      simp only [List.foldl_cons, List.map_cons, List.sum_cons]
      rw [ih (b.segs.foldl (fun acc2 seg => if MAX_SEGS ≤ acc2.2 then acc2
            else (writeSeg acc2.1 acc2.2 seg (b.age / b.maxAge) b.hue,
              acc2.2 + 1)) acc)
          (by rw [uploadInner_count (b.age / b.maxAge) b.hue b.segs acc h]; omega),
        uploadInner_count (b.age / b.maxAge) b.hue b.segs acc h]
      omega

/-- The whole packer never decreases the segment counter. -/
theorem uploadOuter_mono (bolts : List Bolt) :
    ∀ acc : (ℕ → ℚ) × ℕ,
      acc.2 ≤ (bolts.foldl (fun acc bolt =>
          bolt.segs.foldl (fun acc2 seg => if MAX_SEGS ≤ acc2.2 then acc2
            else (writeSeg acc2.1 acc2.2 seg (bolt.age / bolt.maxAge) bolt.hue,
              acc2.2 + 1)) acc) acc).2 := by
  induction bolts with
  | nil => intro acc; exact Nat.le_refl _
  | cons b rest ih =>
      intro acc
      simp only [List.foldl_cons]
      exact le_trans (uploadInner_mono (b.age / b.maxAge) b.hue b.segs acc)
        (ih (b.segs.foldl (fun acc2 seg => if MAX_SEGS ≤ acc2.2 then acc2
            else (writeSeg acc2.1 acc2.2 seg (b.age / b.maxAge) b.hue,
              acc2.2 + 1)) acc))

/-- The whole packer writes only below `40 * final counter`. -/
theorem uploadOuter_frame (bolts : List Bolt) :
    ∀ (acc : (ℕ → ℚ) × ℕ) (j : ℕ),
      ((bolts.foldl (fun acc bolt =>
          bolt.segs.foldl (fun acc2 seg => if MAX_SEGS ≤ acc2.2 then acc2
            else (writeSeg acc2.1 acc2.2 seg (bolt.age / bolt.maxAge) bolt.hue,
              acc2.2 + 1)) acc) acc).2 * 40 ≤ j
        ∨ j < acc.2 * 40) →
      (bolts.foldl (fun acc bolt =>
          bolt.segs.foldl (fun acc2 seg => if MAX_SEGS ≤ acc2.2 then acc2
            else (writeSeg acc2.1 acc2.2 seg (bolt.age / bolt.maxAge) bolt.hue,
              acc2.2 + 1)) acc) acc).1 j
        = acc.1 j := by
  induction bolts with
  | nil => intro acc j h; rfl
  | cons b rest ih =>
      intro acc j h
      simp only [List.foldl_cons] at h ⊢
      have hmono1 := uploadInner_mono (b.age / b.maxAge) b.hue b.segs acc
      have hmono2 := uploadOuter_mono rest
        (b.segs.foldl (fun acc2 seg => if MAX_SEGS ≤ acc2.2 then acc2
          else (writeSeg acc2.1 acc2.2 seg (b.age / b.maxAge) b.hue,
            acc2.2 + 1)) acc)
      rw [ih (b.segs.foldl (fun acc2 seg => if MAX_SEGS ≤ acc2.2 then acc2
          else (writeSeg acc2.1 acc2.2 seg (b.age / b.maxAge) b.hue,
            acc2.2 + 1)) acc) j (by omega)]
      exact uploadInner_frame (b.age / b.maxAge) b.hue b.segs acc j (by omega)

end Lightning

namespace Effects

/-- Folding `Function.update` over an enumerated list touches only the
enumerated indices `[n, n + length)`. -/
theorem enumFoldl_frame {α : Type} (v : Smoke → α) (sm : List Smoke) :
    ∀ (n : ℕ) (g : ℕ → α) (i : ℕ), (n + sm.length ≤ i ∨ i < n) →
      ((sm.enumFrom n).foldl
          (fun p is => Function.update p is.1 (v is.2)) g) i = g i := by
  induction sm with
  | nil => intro n g i h; rfl
  | cons s rest ih =>
      intro n g i h
      show ((rest.enumFrom (n + 1)).foldl
          (fun p is => Function.update p is.1 (v is.2))
          (Function.update g n (v s))) i = g i
      rw [ih (n + 1) (Function.update g n (v s)) i
        (by simp only [List.length_cons] at h; omega)]
      have hne : i ≠ n := by
        simp only [List.length_cons] at h
        omega
      rw [Function.update_apply, if_neg hne]

/-- Folding `Function.update` over an enumerated list stores the packed
value of element `i` at index `n + i`. -/
theorem enumFoldl_read {α : Type} (v : Smoke → α) (sm : List Smoke) :
    ∀ (n : ℕ) (g : ℕ → α) (i : ℕ) (h : i < sm.length),
      ((sm.enumFrom n).foldl
          (fun p is => Function.update p is.1 (v is.2)) g) (n + i)
        = v (sm.get ⟨i, h⟩) := by
  induction sm with
  | nil => intro n g i h; exact absurd h (by simp)
  | cons s rest ih =>
      intro n g i h
      match i with
      | 0 =>
          show ((rest.enumFrom (n + 1)).foldl
              (fun p is => Function.update p is.1 (v is.2))
              (Function.update g n (v s))) (n + 0) = v s
          rw [enumFoldl_frame v rest (n + 1) (Function.update g n (v s)) (n + 0)
            (Or.inr (by omega))]
          rw [Nat.add_zero, Function.update_apply, if_pos rfl]
      | i + 1 =>
          show ((rest.enumFrom (n + 1)).foldl
              (fun p is => Function.update p is.1 (v is.2))
              (Function.update g n (v s))) (n + (i + 1))
            = v (rest.get ⟨i, _⟩)
          rw [show n + (i + 1) = (n + 1) + i from by omega,
            ih (n + 1) (Function.update g n (v s)) i (by simpa using h)]

end Effects

/-- C9. Every frame the GPU packers expose exactly the live packed units as
the draw count and never exceed the buffer capacity: `uploadToGPU` packs
`min(MAX_SEGS, total live segments)` segments (the caller draws
`segIdx * IDX_PER_SEG` indices, at most `MAX_SEGS * IDX_PER_SEG`), writes
each packed segment's ten vertex attributes into its own 40-float slot, and
leaves every buffer index at or beyond the live range unchanged; `syncGPU`
publishes `uCount = live smoke count`, writes each live smoke's packed
position/colour uniform into its own slot, and leaves every slot past the
live count unchanged — so stale trailing buffer slots are never rendered. -/
theorem c9_gpu_packing (bolts : List Lightning.Bolt) (buf : ℕ → ℚ)
    (smokes : List Effects.Smoke) (pos colr : ℕ → ℚ × ℚ × ℚ × ℚ) :
    ((Lightning.uploadToGPU bolts buf).2
        = min Lightning.MAX_SEGS ((bolts.map (fun b => b.segs.length)).sum)
      ∧ (Lightning.uploadToGPU bolts buf).2 * Lightning.IDX_PER_SEG
          ≤ Lightning.MAX_SEGS * Lightning.IDX_PER_SEG
      ∧ (∀ j, (Lightning.uploadToGPU bolts buf).2 *
            (Lightning.VERTS_PER_SEG * Lightning.FLOATS_PER_VERT) ≤ j →
          (Lightning.uploadToGPU bolts buf).1 j = buf j)
      ∧ (∀ (c : ℕ) (seg : Lightning.Seg) (life hue : ℚ) (b : ℕ → ℚ)
            (vi a : ℕ), vi < 4 → a < 10 →
          Lightning.writeSeg b c seg life hue (c * 40 + vi * 10 + a)
            = (Lightning.segFloats seg life hue
                (Lightning.quadSides.getD vi (0, 0)).1
                (Lightning.quadSides.getD vi (0, 0)).2).getD a 0))
    ∧ ((Effects.syncGPU smokes pos colr).1 = smokes.length
      ∧ (∀ (i : ℕ) (h : i < smokes.length),
          (Effects.syncGPU smokes pos colr).2.1 i
            = ((smokes.get ⟨i, h⟩).x, (smokes.get ⟨i, h⟩).y,
               (smokes.get ⟨i, h⟩).radius,
               clamp01 ((smokes.get ⟨i, h⟩).age / (smokes.get ⟨i, h⟩).maxAge))
            ∧ (Effects.syncGPU smokes pos colr).2.2 i
              = ((smokes.get ⟨i, h⟩).hue, (smokes.get ⟨i, h⟩).seed, 1,
                 (smokes.get ⟨i, h⟩).sat))
      ∧ (∀ i, smokes.length ≤ i →
          (Effects.syncGPU smokes pos colr).2.1 i = pos i
            ∧ (Effects.syncGPU smokes pos colr).2.2 i = colr i)) := by
  have e : Lightning.uploadToGPU bolts buf
      = bolts.foldl (fun acc bolt =>
          bolt.segs.foldl (fun acc2 seg =>
            if Lightning.MAX_SEGS ≤ acc2.2 then acc2
            else (Lightning.writeSeg acc2.1 acc2.2 seg
              (bolt.age / bolt.maxAge) bolt.hue, acc2.2 + 1)) acc)
          (buf, 0) := rfl
  refine ⟨⟨?_, ?_, ?_, ?_⟩, rfl, ?_, ?_⟩
  · rw [e, Lightning.uploadOuter_count bolts (buf, 0) (Nat.zero_le _)]
    simp
  · have h1 : (Lightning.uploadToGPU bolts buf).2 ≤ Lightning.MAX_SEGS := by
      rw [e, Lightning.uploadOuter_count bolts (buf, 0) (Nat.zero_le _)]
      exact min_le_left _ _
    exact Nat.mul_le_mul_right _ h1
  · intro j hj
    rw [e] at hj ⊢
    simp only [show Lightning.VERTS_PER_SEG * Lightning.FLOATS_PER_VERT = 40
      from rfl] at hj
    exact Lightning.uploadOuter_frame bolts (buf, 0) j (Or.inl hj)
  · intro c seg life hue b vi a hvi ha
    exact Lightning.writeSeg_read b c seg life hue vi a hvi ha
  · intro i h
    constructor
    · have h2 := Effects.enumFoldl_read
        (fun s => (s.x, s.y, s.radius, clamp01 (s.age / s.maxAge)))
        smokes 0 pos i h
      rw [Nat.zero_add] at h2
      exact h2
    · have h2 := Effects.enumFoldl_read
        (fun s => (s.hue, s.seed, (1 : ℚ), s.sat)) smokes 0 colr i h
      rw [Nat.zero_add] at h2
      exact h2
  · intro i h
    constructor
    · exact Effects.enumFoldl_frame
        (fun s => (s.x, s.y, s.radius, clamp01 (s.age / s.maxAge)))
        smokes 0 pos i (Or.inl (by omega))
    · exact Effects.enumFoldl_frame
        (fun s => (s.hue, s.seed, (1 : ℚ), s.sat))
        smokes 0 colr i (Or.inl (by omega))

/-- A concrete smoke particle for the C9 witness. -/
def s9 : Effects.Smoke :=
  ⟨1/2, 1/3, 0, 0, 1, 2, 1/4, 7, 210, 1⟩

/-- Witness for C9 at concrete inputs: an empty bolt list leaves the whole
buffer unchanged, and a one-smoke pool packs slot 0 and leaves slot 3
unchanged. -/
theorem c9_gpu_packing_witness :
    ((Lightning.uploadToGPU [] (fun _ => 0)).2 *
        (Lightning.VERTS_PER_SEG * Lightning.FLOATS_PER_VERT) ≤ 7
      ∧ (Lightning.uploadToGPU [] (fun _ => 0)).1 7 = 0)
    ∧ ((0 : ℕ) < 1
      ∧ (Effects.syncGPU [s9] (fun _ => (0, 0, 0, 0))
            (fun _ => (0, 0, 0, 0))).2.1 0
          = (s9.x, s9.y, s9.radius, clamp01 (s9.age / s9.maxAge)))
    ∧ ((1 : ℕ) ≤ 3
      ∧ (Effects.syncGPU [s9] (fun _ => (0, 0, 0, 0))
            (fun _ => (0, 0, 0, 0))).2.1 3
          = (0, 0, 0, 0)) := by
  refine ⟨⟨by decide, ?_⟩, ⟨by decide, ?_⟩, ⟨by decide, ?_⟩⟩
  · exact (c9_gpu_packing [] (fun _ => 0) [s9] (fun _ => (0, 0, 0, 0))
      (fun _ => (0, 0, 0, 0))).1.2.2.1 7 (by decide)
  · exact ((c9_gpu_packing [] (fun _ => 0) [s9] (fun _ => (0, 0, 0, 0))
      (fun _ => (0, 0, 0, 0))).2.2.1 0 (by decide)).1
  · exact ((c9_gpu_packing [] (fun _ => 0) [s9] (fun _ => (0, 0, 0, 0))
      (fun _ => (0, 0, 0, 0))).2.2.2 3 (by decide)).1

/-! ## C7: dt = 0 frames — ages are preserved, but pools may still change -/

/-- Membership in a FIFO pool insertion: the element is an old member or the
inserted value. -/
theorem mem_pushPool {α : Type} (cap : ℕ) (p : List α) (x b : α)
    (h : b ∈ pushPool cap p x) : b ∈ p ∨ b = x := by
  unfold pushPool at h
  split at h <;> rcases List.mem_append.1 h with h2 | h2
  · exact Or.inl (List.drop_subset 1 p h2)
  · exact Or.inr (List.mem_singleton.1 h2)
  · exact Or.inl h2
  · exact Or.inr (List.mem_singleton.1 h2)

/-- A fold whose step only pushes elements satisfying `P` preserves
pool membership up to `P`. -/
theorem foldl_pool_mem {α β : Type} (g : List α × ℕ → β → List α × ℕ)
    (P : α → Prop)
    (hg : ∀ acc i, ∀ x ∈ (g acc i).1, x ∈ acc.1 ∨ P x) :
    ∀ (l : List β) (acc : List α × ℕ) (x : α),
      x ∈ (l.foldl g acc).1 → x ∈ acc.1 ∨ P x := by
  intro l
  induction l with
  | nil => intro acc x h; exact Or.inl h
  | cons i rest ih =>
      intro acc x h
      rcases ih (g acc i) x h with h2 | h2
      · exact hg acc i x h2
      · exact Or.inr h2

namespace Lightning

/-- Every bolt built by `makeBolt` starts at age 0. -/
theorem makeBolt_age (E : JSEnv) (a : MakeBoltArgs) (k : ℕ) :
    (makeBolt E a k).1.age = 0 := by
  obtain ⟨x1, y1, x2, y2, hue, en, bpm, ma⟩ := a
  cases ma <;> rfl

/-- `spawnBolt` only adds a fresh (age 0) bolt to the pool. -/
theorem spawnBolt_mem (E : JSEnv) (x1 y1 x2 y2 hue energy bpm : ℚ)
    (ma : Option ℚ) (bolts : List Bolt) (k : ℕ) (b : Bolt)
    (h : b ∈ (spawnBolt E x1 y1 x2 y2 hue energy bpm ma bolts k).1) :
    b ∈ bolts ∨ b.age = 0 := by
  unfold spawnBolt at h
  dsimp only at h
  rcases mem_pushPool _ _ _ _ h with h2 | h2
  · exact Or.inl h2
  · right
    rw [h2]
    exact makeBolt_age E _ k

/-- `spawnEdgeBolt` only adds a fresh (age 0) bolt to the pool. -/
theorem spawnEdgeBolt_mem (E : JSEnv) (hue energy bpm : ℚ)
    (bolts : List Bolt) (k : ℕ) (b : Bolt)
    (h : b ∈ (spawnEdgeBolt E hue energy bpm bolts k).1) :
    b ∈ bolts ∨ b.age = 0 := by
  unfold spawnEdgeBolt at h
  dsimp only at h
  exact spawnBolt_mem _ _ _ _ _ _ _ _ _ _ _ _ h

/-- The beat block only adds fresh bolts. -/
theorem beatBlock_mem (E : JSEnv) (bolts : List Bolt) (k : ℕ)
    (bc spb hue e bpm : ℚ) (b : Bolt)
    (h : b ∈ (beatBlock E bolts k bc spb hue e bpm).1) :
    b ∈ bolts ∨ b.age = 0 := by
  unfold beatBlock at h
  split at h
  · exact spawnEdgeBolt_mem _ _ _ _ _ _ _ h
  · exact Or.inl h

/-- The snap block only adds fresh bolts. -/
theorem snapBlock_mem (E : JSEnv) (bolts : List Bolt) (k : ℕ)
    (onset onsetThresh beatPhase beatSnapCD impactCD spb hue e bpm : ℚ)
    (b : Bolt)
    (h : b ∈ (snapBlock E bolts k onset onsetThresh beatPhase beatSnapCD
        impactCD spb hue e bpm).1) :
    b ∈ bolts ∨ b.age = 0 := by
  unfold snapBlock at h
  split at h
  · exact spawnEdgeBolt_mem _ _ _ _ _ _ _ h
  · exact Or.inl h

/-- The onset block only adds fresh bolts. -/
theorem onsetBlock_mem (E : JSEnv) (bolts : List Bolt) (k : ℕ)
    (onset onsetThresh impactCD hue e bpm : ℚ) (b : Bolt)
    (h : b ∈ (onsetBlock E bolts k onset onsetThresh impactCD hue e bpm).1) :
    b ∈ bolts ∨ b.age = 0 := by
  unfold onsetBlock at h
  split at h
  · exact spawnEdgeBolt_mem _ _ _ _ _ _ _ h
  · exact Or.inl h

/-- The multi-hit / fallback block only adds fresh bolts. -/
theorem multiBlock_mem (E : JSEnv) (bolts : List Bolt) (k : ℕ)
    (sbO midO hiO onset bigHitCD beatCD hue e bpm : ℚ) (b : Bolt)
    (h : b ∈ (multiBlock E bolts k sbO midO hiO onset bigHitCD beatCD
        hue e bpm).1) :
    b ∈ bolts ∨ b.age = 0 := by
  unfold multiBlock at h
  dsimp only at h
  split at h
  · split at h
    · rcases spawnEdgeBolt_mem _ _ _ _ _ _ _ h with h2 | h2
      · exact spawnBolt_mem _ _ _ _ _ _ _ _ _ _ _ _ h2
      · exact Or.inr h2
    · exact spawnBolt_mem _ _ _ _ _ _ _ _ _ _ _ _ h
  · split at h
    · exact spawnBolt_mem _ _ _ _ _ _ _ _ _ _ _ _ h
    · exact Or.inl h

/-- Membership in the aged pool: every survivor is an old member advanced by
`dt`. -/
theorem ageBolts_mem_age (dt : ℚ) (l : List Bolt) (b : Bolt)
    (h : b ∈ ageBolts dt l) : ∃ b0 ∈ l, b.age = b0.age + dt := by
  unfold ageBolts at h
  obtain ⟨hmem, _⟩ := List.mem_filter.1 h
  obtain ⟨b0, hb0, hb⟩ := List.mem_map.1 hmem
  exact ⟨b0, hb0, by rw [← hb]⟩

/-- A dt = 0 frame of the lightning system never advances a bolt's age:
every bolt of the new pool is fresh (age 0) or keeps the age of a stored
bolt. -/
theorem lightningUpdate_dt0_ages (E : JSEnv) (s : LState) (freq : List ℕ)
    (energy bpm hue : ℚ) (b : Bolt)
    (hb : b ∈ (lightningUpdate E s ⟨freq, energy, bpm, hue, 0⟩).1.bolts) :
    b.age = 0 ∨ ∃ b0 ∈ s.bolts, b.age = b0.age := by
  unfold lightningUpdate at hb
  dsimp only at hb
  by_cases hl : freq.length = 0
  · rw [if_pos hl] at hb
    exact Or.inr ⟨b, hb, rfl⟩
  · rw [if_neg hl] at hb
    obtain ⟨b1, hb1, hage⟩ := ageBolts_mem_age _ _ _ hb
    rw [add_zero] at hage
    rcases multiBlock_mem _ _ _ _ _ _ _ _ _ _ _ _ _ hb1 with h4 | h4
    · rcases onsetBlock_mem _ _ _ _ _ _ _ _ _ _ h4 with h3 | h3
      · rcases snapBlock_mem _ _ _ _ _ _ _ _ _ _ _ _ _ h3 with h2 | h2
        · rcases beatBlock_mem _ _ _ _ _ _ _ _ _ h2 with h1 | h1
          · exact Or.inr ⟨b1, h1, hage⟩
          · exact Or.inl (hage.trans h1)
        · exact Or.inl (hage.trans h2)
      · exact Or.inl (hage.trans h3)
    · exact Or.inl (hage.trans h4)

end Lightning

namespace Effects

/-- `addSmoke` only adds a fresh (age 0) puff. -/
theorem mem_addSmoke (E : JSEnv) (x y vx vy hue sat : ℚ) (sr : ℚ × ℚ)
    (intensity ss ls : ℚ) (smokes : List Smoke) (k : ℕ) (sm : Smoke)
    (h : sm ∈ (addSmoke E x y vx vy hue sat sr intensity ss ls smokes k).1) :
    sm ∈ smokes ∨ sm.age = 0 := by
  unfold addSmoke at h
  dsimp only at h
  rcases mem_pushPool _ _ _ _ h with h2 | h2
  · exact Or.inl h2
  · right
    rw [h2]

/-- `triggerBurst` only adds fresh puffs. -/
theorem triggerBurst_mem (E : JSEnv) (energy : ℚ) (smokes : List Smoke)
    (k : ℕ) (sm : Smoke) (h : sm ∈ (triggerBurst E energy smokes k).1) :
    sm ∈ smokes ∨ sm.age = 0 := by
  unfold triggerBurst at h
  dsimp only at h
  exact foldl_pool_mem _ _
    (fun acc i x hx => mem_addSmoke _ _ _ _ _ _ _ _ _ _ _ _ _ _ hx) _ _ _ h

/-- `triggerScatter` only adds fresh puffs. -/
theorem triggerScatter_mem (E : JSEnv) (energy : ℚ) (smokes : List Smoke)
    (k : ℕ) (sm : Smoke) (h : sm ∈ (triggerScatter E energy smokes k).1) :
    sm ∈ smokes ∨ sm.age = 0 := by
  unfold triggerScatter at h
  dsimp only at h
  exact foldl_pool_mem _ _
    (fun acc i x hx => mem_addSmoke _ _ _ _ _ _ _ _ _ _ _ _ _ _ hx) _ _ _ h

/-- `triggerPlume` only adds a fresh (age 0) jet. -/
theorem triggerPlume_mem (E : JSEnv) (energy bpm : ℚ) (jets : List Jet)
    (k : ℕ) (j : Jet) (h : j ∈ (triggerPlume E energy bpm jets k).1) :
    j ∈ jets ∨ j.age = 0 := by
  unfold triggerPlume at h
  dsimp only at h
  rcases mem_pushPool _ _ _ _ h with h2 | h2
  · exact Or.inl h2
  · right
    rw [h2]

/-- `triggerComet` only adds a fresh (age 0) jet. -/
theorem triggerComet_mem (E : JSEnv) (energy bpm : ℚ) (jets : List Jet)
    (k : ℕ) (j : Jet) (h : j ∈ (triggerComet E energy bpm jets k).1) :
    j ∈ jets ∨ j.age = 0 := by
  unfold triggerComet at h
  dsimp only at h
  rcases mem_pushPool _ _ _ _ h with h2 | h2
  · exact Or.inl h2
  · right
    rw [h2]

/-- `triggerShockwave` only adds fresh puffs to the smoke pool. -/
theorem triggerShockwave_smokes_mem (E : JSEnv) (energy bpm : ℚ)
    (smokes : List Smoke) (jets : List Jet) (k : ℕ) (sm : Smoke)
    (h : sm ∈ (triggerShockwave E energy bpm smokes jets k).1) :
    sm ∈ smokes ∨ sm.age = 0 := by
  unfold triggerShockwave at h
  dsimp only at h
  exact foldl_pool_mem _ _
    (fun acc i x hx => mem_addSmoke _ _ _ _ _ _ _ _ _ _ _ _ _ _ hx) _ _ _ h

/-- `triggerShockwave` only adds fresh (age 0) arm jets. -/
theorem triggerShockwave_jets_mem (E : JSEnv) (energy bpm : ℚ)
    (smokes : List Smoke) (jets : List Jet) (k : ℕ) (j : Jet)
    (h : j ∈ (triggerShockwave E energy bpm smokes jets k).2.1) :
    j ∈ jets ∨ j.age = 0 := by
  unfold triggerShockwave at h
  dsimp only at h
  refine foldl_pool_mem _ (fun x => x.age = 0) ?_ _ _ _ h
  intro acc i x hx
  rcases mem_pushPool _ _ _ _ hx with h2 | h2
  · exact Or.inl h2
  · right
    rw [h2]
    rfl

/-- `pickAndFire` only adds fresh puffs to the smoke pool. -/
theorem pickAndFire_smokes (E : JSEnv) (energy bpm : ℚ) (s : EState)
    (sm : Smoke) (h : sm ∈ (pickAndFire E energy bpm s).1.smokes) :
    sm ∈ s.smokes ∨ sm.age = 0 := by
  unfold pickAndFire at h
  dsimp only at h
  split at h
  · exact Or.inl h
  · split at h
    · exact Or.inl h
    · split at h
      · exact triggerBurst_mem _ _ _ _ _ h
      · split at h
        · exact Or.inl h
        · exact triggerScatter_mem _ _ _ _ _ h

/-- `pickAndFire` only adds fresh (age 0) jets to the jet pool. -/
theorem pickAndFire_jets (E : JSEnv) (energy bpm : ℚ) (s : EState)
    (j : Jet) (h : j ∈ (pickAndFire E energy bpm s).1.jets) :
    j ∈ s.jets ∨ j.age = 0 := by
  unfold pickAndFire at h
  dsimp only at h
  split at h
  · exact Or.inl h
  · split at h
    · exact triggerPlume_mem _ _ _ _ _ _ h
    · split at h
      · exact Or.inl h
      · split at h
        · exact triggerComet_mem _ _ _ _ _ _ h
        · exact Or.inl h

end Effects

namespace Effects

/-- A single jet emission step only adds fresh (age 0) puffs to the smoke
pool. -/
theorem jetStep_smokes (E : JSEnv) (bands : Bands) (dt : ℚ) (jet : Jet)
    (smokes : List Smoke) (k : ℕ) (sm : Smoke)
    (h : sm ∈ (jetStep E bands dt jet smokes k).2.1) :
    sm ∈ smokes ∨ sm.age = 0 := by
  unfold jetStep at h
  dsimp only at h
  exact foldl_pool_mem _ _
    (fun acc i x hx => mem_addSmoke _ _ _ _ _ _ _ _ _ _ _ _ _ _ hx) _ _ _ h

/-- A surviving jet keeps its age plus `dt`. -/
theorem jetStep_age (E : JSEnv) (bands : Bands) (dt : ℚ) (jet : Jet)
    (smokes : List Smoke) (k : ℕ) (j : Jet)
    (h : (jetStep E bands dt jet smokes k).1 = some j) :
    j.age = jet.age + dt := by
  unfold jetStep at h
  dsimp only at h
  split at h
  · exact absurd h (by simp)
  · rw [← Option.some.inj h]

/-- `updateJets` only adds fresh puffs to the smoke pool. -/
theorem updateJets_smokes (E : JSEnv) (bands : Bands) (dt : ℚ) :
    ∀ (jets : List Jet) (smokes : List Smoke) (k : ℕ) (sm : Smoke),
      sm ∈ (updateJets E bands dt jets smokes k).2.1 →
        sm ∈ smokes ∨ sm.age = 0 := by
  intro jets
  induction jets with
  | nil => intro smokes k sm h; exact Or.inl h
  | cons j rest ih =>
      intro smokes k sm h
      simp only [updateJets] at h
      rcases jetStep_smokes _ _ _ _ _ _ _ h with h2 | h2
      · exact ih smokes k sm h2
      · exact Or.inr h2

/-- Every jet surviving `updateJets` is a stored jet advanced by `dt`. -/
theorem updateJets_jets (E : JSEnv) (bands : Bands) (dt : ℚ) :
    ∀ (jets : List Jet) (smokes : List Smoke) (k : ℕ) (j : Jet),
      j ∈ (updateJets E bands dt jets smokes k).1 →
        ∃ j0 ∈ jets, j.age = j0.age + dt := by
  intro jets
  induction jets with
  | nil => intro smokes k j h; exact absurd h (by simp [updateJets])
  | cons jh rest ih =>
      intro smokes k j h
      simp only [updateJets] at h
      rcases List.mem_append.1 h with h2 | h2
      · rcases hs : (jetStep E bands dt jh
            (updateJets E bands dt rest smokes k).2.1
            (updateJets E bands dt rest smokes k).2.2).1 with _ | j'
        · rw [hs] at h2
          exact absurd h2 (by simp)
        · rw [hs] at h2
          have hx : j = j' := List.mem_singleton.1 h2
          refine ⟨jh, List.mem_cons_self _ _, ?_⟩
          rw [hx]
          exact jetStep_age _ _ _ _ _ _ _ hs
      · obtain ⟨j0, hj0, hage⟩ := ih _ _ _ h2
        exact ⟨j0, List.mem_cons_of_mem _ hj0, hage⟩

/-- A surviving smoke keeps its age plus `dt`. -/
theorem smokeStep_age (E : JSEnv) (bands : Bands) (dt : ℚ) (s : Smoke)
    (sm : Smoke) (h : smokeStep E bands dt s = some sm) :
    sm.age = s.age + dt := by
  unfold smokeStep at h
  dsimp only at h
  split at h
  · exact absurd h (by simp)
  · split at h
    · exact absurd h (by simp)
    · rw [← Option.some.inj h]

end Effects


/-- Eliminate a membership in a projection of an `if` by providing both
branches. -/
theorem mem_ite {α σ : Type} {C : Prop} [Decidable C] {x : α} {A B : σ}
    (f : σ → List α) {P : Prop} (hA : x ∈ f A → P) (hB : x ∈ f B → P) :
    x ∈ f (if C then A else B) → P := by
  intro h
  by_cases hC : C
  · rw [if_pos hC] at h
    exact hA h
  · rw [if_neg hC] at h
    exact hB h

namespace Effects

/-- A dt = 0 frame of the particle engine never advances a smoke's age:
every smoke of the new pool is fresh (age 0) or keeps the age of a stored
smoke. -/
theorem effectsUpdate_dt0_smokes (E : JSEnv) (s : EState) (p : EParams)
    (sm : Smoke) (hm : sm ∈ (effectsUpdate E s p 0).1.smokes) :
    sm.age = 0 ∨ ∃ s0 ∈ s.smokes, sm.age = s0.age := by
  unfold effectsUpdate at hm
  dsimp only at hm
  obtain ⟨sm1, hsm1, hstep⟩ := List.mem_filterMap.1 hm
  have hage := smokeStep_age _ _ _ _ _ hstep
  rw [add_zero] at hage
  rcases updateJets_smokes _ _ _ _ _ _ _ hsm1 with h | h
  · revert h
    refine mem_ite (fun t : EState × Bool => t.1.smokes) ?_ ?_
    · -- shockwave branch
      intro h
      dsimp only at h
      rcases triggerShockwave_smokes_mem _ _ _ _ _ _ _ h with h | h
      · revert h
        refine mem_ite (fun t : EState × Option ℕ => t.1.smokes) ?_ ?_
        · intro h
          dsimp only at h
          rcases pickAndFire_smokes _ _ _ _ _ h with h | h
          · revert h
            refine mem_ite (fun t : EState × Option ℕ => t.1.smokes) ?_ ?_
            · refine mem_ite (fun t : EState × Option ℕ => t.1.smokes) ?_ ?_
              · refine mem_ite (fun t : EState × Option ℕ => t.1.smokes) ?_ ?_
                · intro h
                  dsimp only at h
                  rcases pickAndFire_smokes _ _ _ _ _ h with h | h
                  · exact Or.inr ⟨sm1, h, hage⟩
                  · exact Or.inl (hage.trans h)
                · intro h
                  exact Or.inr ⟨sm1, h, hage⟩
              · intro h
                exact Or.inr ⟨sm1, h, hage⟩
            · intro h
              exact Or.inr ⟨sm1, h, hage⟩
          · exact Or.inl (hage.trans h)
        · intro h
          dsimp only at h
          revert h
          refine mem_ite (fun t : EState × Option ℕ => t.1.smokes) ?_ ?_
          · refine mem_ite (fun t : EState × Option ℕ => t.1.smokes) ?_ ?_
            · refine mem_ite (fun t : EState × Option ℕ => t.1.smokes) ?_ ?_
              · intro h
                dsimp only at h
                rcases pickAndFire_smokes _ _ _ _ _ h with h | h
                · exact Or.inr ⟨sm1, h, hage⟩
                · exact Or.inl (hage.trans h)
              · intro h
                exact Or.inr ⟨sm1, h, hage⟩
            · intro h
              exact Or.inr ⟨sm1, h, hage⟩
          · intro h
            exact Or.inr ⟨sm1, h, hage⟩
      · exact Or.inl (hage.trans h)
    · -- no shockwave
      intro h
      dsimp only at h
      revert h
      refine mem_ite (fun t : EState × Option ℕ => t.1.smokes) ?_ ?_
      · intro h
        dsimp only at h
        rcases pickAndFire_smokes _ _ _ _ _ h with h | h
        · revert h
          refine mem_ite (fun t : EState × Option ℕ => t.1.smokes) ?_ ?_
          · refine mem_ite (fun t : EState × Option ℕ => t.1.smokes) ?_ ?_
            · refine mem_ite (fun t : EState × Option ℕ => t.1.smokes) ?_ ?_
              · intro h
                dsimp only at h
                rcases pickAndFire_smokes _ _ _ _ _ h with h | h
                · exact Or.inr ⟨sm1, h, hage⟩
                · exact Or.inl (hage.trans h)
              · intro h
                exact Or.inr ⟨sm1, h, hage⟩
            · intro h
              exact Or.inr ⟨sm1, h, hage⟩
          · intro h
            exact Or.inr ⟨sm1, h, hage⟩
        · exact Or.inl (hage.trans h)
      · intro h
        dsimp only at h
        revert h
        refine mem_ite (fun t : EState × Option ℕ => t.1.smokes) ?_ ?_
        · refine mem_ite (fun t : EState × Option ℕ => t.1.smokes) ?_ ?_
          · refine mem_ite (fun t : EState × Option ℕ => t.1.smokes) ?_ ?_
            · intro h
              dsimp only at h
              rcases pickAndFire_smokes _ _ _ _ _ h with h | h
              · exact Or.inr ⟨sm1, h, hage⟩
              · exact Or.inl (hage.trans h)
            · intro h
              exact Or.inr ⟨sm1, h, hage⟩
          · intro h
            exact Or.inr ⟨sm1, h, hage⟩
        · intro h
          exact Or.inr ⟨sm1, h, hage⟩
  · exact Or.inl (hage.trans h)

/-- A dt = 0 frame of the particle engine never advances a jet's age:
every jet of the new pool is fresh (age 0) or keeps the age of a stored
jet. -/
theorem effectsUpdate_dt0_jets (E : JSEnv) (s : EState) (p : EParams)
    (j : Jet) (hm : j ∈ (effectsUpdate E s p 0).1.jets) :
    j.age = 0 ∨ ∃ j0 ∈ s.jets, j.age = j0.age := by
  unfold effectsUpdate at hm
  dsimp only at hm
  obtain ⟨j1, hj1, hage⟩ := updateJets_jets _ _ _ _ _ _ _ hm
  rw [add_zero] at hage
  revert hj1
  refine mem_ite (fun t : EState × Bool => t.1.jets) ?_ ?_
  · -- shockwave branch
    intro h
    dsimp only at h
    rcases triggerShockwave_jets_mem _ _ _ _ _ _ _ h with h | h
    · revert h
      refine mem_ite (fun t : EState × Option ℕ => t.1.jets) ?_ ?_
      · intro h
        dsimp only at h
        rcases pickAndFire_jets _ _ _ _ _ h with h | h
        · revert h
          refine mem_ite (fun t : EState × Option ℕ => t.1.jets) ?_ ?_
          · refine mem_ite (fun t : EState × Option ℕ => t.1.jets) ?_ ?_
            · refine mem_ite (fun t : EState × Option ℕ => t.1.jets) ?_ ?_
              · intro h
                dsimp only at h
                rcases pickAndFire_jets _ _ _ _ _ h with h | h
                · exact Or.inr ⟨j1, h, hage⟩
                · exact Or.inl (hage.trans h)
              · intro h
                exact Or.inr ⟨j1, h, hage⟩
            · intro h
              exact Or.inr ⟨j1, h, hage⟩
          · intro h
            exact Or.inr ⟨j1, h, hage⟩
        · exact Or.inl (hage.trans h)
      · intro h
        dsimp only at h
        revert h
        refine mem_ite (fun t : EState × Option ℕ => t.1.jets) ?_ ?_
        · refine mem_ite (fun t : EState × Option ℕ => t.1.jets) ?_ ?_
          · refine mem_ite (fun t : EState × Option ℕ => t.1.jets) ?_ ?_
            · intro h
              dsimp only at h
              rcases pickAndFire_jets _ _ _ _ _ h with h | h
              · exact Or.inr ⟨j1, h, hage⟩
              · exact Or.inl (hage.trans h)
            · intro h
              exact Or.inr ⟨j1, h, hage⟩
          · intro h
            exact Or.inr ⟨j1, h, hage⟩
        · intro h
          exact Or.inr ⟨j1, h, hage⟩
    · exact Or.inl (hage.trans h)
  · -- no shockwave
    intro h
    dsimp only at h
    revert h
    refine mem_ite (fun t : EState × Option ℕ => t.1.jets) ?_ ?_
    · intro h
      dsimp only at h
      rcases pickAndFire_jets _ _ _ _ _ h with h | h
      · revert h
        refine mem_ite (fun t : EState × Option ℕ => t.1.jets) ?_ ?_
        · refine mem_ite (fun t : EState × Option ℕ => t.1.jets) ?_ ?_
          · refine mem_ite (fun t : EState × Option ℕ => t.1.jets) ?_ ?_
            · intro h
              dsimp only at h
              rcases pickAndFire_jets _ _ _ _ _ h with h | h
              · exact Or.inr ⟨j1, h, hage⟩
              · exact Or.inl (hage.trans h)
            · intro h
              exact Or.inr ⟨j1, h, hage⟩
          · intro h
            exact Or.inr ⟨j1, h, hage⟩
        · intro h
          exact Or.inr ⟨j1, h, hage⟩
      · exact Or.inl (hage.trans h)
    · intro h
      dsimp only at h
      revert h
      refine mem_ite (fun t : EState × Option ℕ => t.1.jets) ?_ ?_
      · refine mem_ite (fun t : EState × Option ℕ => t.1.jets) ?_ ?_
        · refine mem_ite (fun t : EState × Option ℕ => t.1.jets) ?_ ?_
          · intro h
            dsimp only at h
            rcases pickAndFire_jets _ _ _ _ _ h with h | h
            · exact Or.inr ⟨j1, h, hage⟩
            · exact Or.inl (hage.trans h)
          · intro h
            exact Or.inr ⟨j1, h, hage⟩
        · intro h
          exact Or.inr ⟨j1, h, hage⟩
      · intro h
        exact Or.inr ⟨j1, h, hage⟩

end Effects

/-- C7 (amended).  For an update call with dt = 0, no primitive's age
advances and no exception is raised (all update functions are total): every
bolt, smoke and jet of the new pools is either freshly spawned this frame
(age 0) or carries the unchanged age of a stored primitive.  The claim's
further assertion that every pool's size is unchanged is false: the
detectors can still fire at dt = 0 through the frame-to-frame attack term,
spawning new primitives (see the counterexample), and expired primitives
are still culled. -/
theorem c7_dt0_amended (E : JSEnv) (s : Lightning.LState)
    (inp : Lightning.LInput) (es : Effects.EState) (p : Effects.EParams)
    (hdt : inp.dt = 0) :
    (∀ b ∈ (Lightning.lightningUpdate E s inp).1.bolts,
        b.age = 0 ∨ ∃ b0 ∈ s.bolts, b.age = b0.age)
    ∧ (∀ sm ∈ (Effects.effectsUpdate E es p 0).1.smokes,
        sm.age = 0 ∨ ∃ s0 ∈ es.smokes, sm.age = s0.age)
    ∧ (∀ j ∈ (Effects.effectsUpdate E es p 0).1.jets,
        j.age = 0 ∨ ∃ j0 ∈ es.jets, j.age = j0.age) := by
  obtain ⟨freq, energy, bpm, hue, dt⟩ := inp
  dsimp only at hdt
  subst hdt
  exact ⟨fun b hb => Lightning.lightningUpdate_dt0_ages E s freq energy bpm hue b hb,
         fun sm hm => Effects.effectsUpdate_dt0_smokes E es p sm hm,
         fun j hj => Effects.effectsUpdate_dt0_jets E es p j hj⟩

/-- A concrete particle-engine state for the C7 witness. -/
def es0 : Effects.EState :=
  ⟨[], [], [0, 0, 0, 0], -1, 0, 0, 0, 0, 0, 0, 0, 0, 0, 0⟩

/-- Witness for C7 (amended) at a concrete dt = 0 input. -/
theorem c7_dt0_amended_witness :
    (⟨[255], 1, 120, 0, 0⟩ : Lightning.LInput).dt = 0 ∧
    (∀ b ∈ (Lightning.lightningUpdate stubEnv ⟨[], zeroLDet⟩
        ⟨[255], 1, 120, 0, 0⟩).1.bolts,
      b.age = 0 ∨ ∃ b0 ∈ (⟨[], zeroLDet⟩ : Lightning.LState).bolts,
        b.age = b0.age) :=
  ⟨rfl, (c7_dt0_amended stubEnv ⟨[], zeroLDet⟩ ⟨[255], 1, 120, 0, 0⟩ es0
    ⟨0, 0, []⟩ rfl).1⟩

/-- A stub environment for the C7 counterexample: zero hypotenuse (every
bolt generates exactly one segment) and a constant random stream. -/
def E7 : JSEnv :=
  { rs := fun _ => 3/4, hyp := fun _ _ => 0, cos := fun _ => 1,
    sin := fun _ => 0, pow := fun _ _ => 1, pi := 314/100, aspect := 1 }

/-- Under `E7` the recursive generator emits exactly one segment and
consumes no random draws. -/
theorem genSeg_E7 (x1 y1 x2 y2 : ℚ) (opts : Lightning.GenOpts) (depth : ℕ)
    (w i : ℚ) (k : ℕ) :
    Lightning.generateSegments E7 x1 y1 x2 y2 opts depth w i [] k
      = ([⟨x1, y1, x2, y2, w, i⟩], k) := by
  rw [Lightning.generateSegments]
  rw [if_neg (by norm_num [Lightning.MAX_SEGS_PER_BOLT])]
  dsimp only
  rw [dif_pos (Or.inr (by norm_num [E7]))]
  simp

/-- Band sum of a constant snapshot. -/
theorem bandSum_replicate (v n lo hi : ℕ) (h : hi ≤ n) :
    Lightning.bandSum (List.replicate n v) lo hi
      = ((hi - lo : ℕ) : ℚ) * ((v : ℚ) / 255) := by
  unfold Lightning.bandSum
  have hmap : ((List.range' lo (hi - lo)).map
      (fun i => (((List.replicate n v).getD i 0 : ℕ) : ℚ) / 255))
      = (List.range' lo (hi - lo)).map (fun _ => (v : ℚ) / 255) := by
    refine List.map_congr_left ?_
    intro i hi2
    have h2 := List.mem_range'_1.1 hi2
    have hin : i < n := by omega
    rw [List.getD_eq_get _ _ (by simpa using hin)]
    rw [List.get_replicate]
  rw [hmap, List.map_const', List.sum_replicate, List.length_range',
    nsmul_eq_mul]

/-- Counterexample to C7's "every primitive pool's size is unchanged": from
the four seed bolts of `createLightningSystem`, a single dt = 0 update with
a loud constant snapshot (all bins 255, energy 1/2, bpm 120) fires the
transient snap, the multi-hit comet and the extra edge bolt through the
attack terms (which do not need time to pass), growing the bolt pool from
4 to 7 in one dt = 0 call. -/
theorem c7_pool_size_counterexample :
    (Lightning.initLState E7).bolts.length = 4 ∧
    (Lightning.lightningUpdate E7 (Lightning.initLState E7)
        ⟨List.replicate 16 255, 1/2, 120, 0, 0⟩).1.bolts.length = 7 := by
  have hb1 : Lightning.bandSum (List.replicate 16 (255:ℕ)) 0 1 = 1 := by
    rw [bandSum_replicate _ _ _ _ (by norm_num)]
    norm_num
  have hb2 : Lightning.bandSum (List.replicate 16 (255:ℕ)) 1 8 = 7 := by
    rw [bandSum_replicate _ _ _ _ (by norm_num)]
    norm_num
  have hb3 : Lightning.bandSum (List.replicate 16 (255:ℕ)) 8 16 = 8 := by
    rw [bandSum_replicate _ _ _ _ (by norm_num)]
    norm_num
  constructor
  · norm_num [Lightning.initLState, Lightning.makeBolt, genSeg_E7, E7,
      List.range_succ, jsRound, min_def, max_def,
      Lightning.WAVE_TOP, Lightning.WAVE_BOT]
  · norm_num [Lightning.lightningUpdate, Lightning.initLState,
      Lightning.lightningAnalysis, Lightning.lightningSpb, Lightning.k60,
      hb1, hb2, hb3, Lightning.beatBlock, Lightning.snapBlock,
      Lightning.onsetBlock, Lightning.multiBlock, Lightning.ageBolts,
      Lightning.spawnEdgeBolt, Lightning.spawnBolt, Lightning.makeBolt,
      Lightning.randomEdgeUV, Lightning.safeY, genSeg_E7, E7,
      jsFloorN, jsFloor, jsRound, rnd, pushPool, min_def, max_def,
      List.range_succ, Lightning.WAVE_TOP, Lightning.WAVE_BOT,
      Lightning.MAX_BOLTS, List.filter,
      show Int.toNat 1 = 1 from rfl, show Int.toNat 8 = 8 from rfl,
      show Int.toNat 3 = 3 from rfl, show Int.toNat 7 = 7 from rfl]
